import Mathlib

/-!
Verification of the BCN multishot toolset for Nuke.

This file gives a shallow embedding of the repository's Python modules
(`gsv_utils.py`, `screens_manager.py`, `render_hooks.py`, `elbows.py`,
`split_lightgroups_from_pass.py`) together with a model of the host
application's API surface (Graph Scope Variables, nodes, knobs), and proves
the correctness properties stated in the specification.

Python strings are modelled by Lean `String`; the Python string operations
used by the code (`strip`, `lstrip`, `split(",")`, `startswith`, slicing)
are re-implemented below over the character list so that all definitions
are executable by the kernel.  Host API calls that can raise are modelled
in the `Except String` monad; a `try/except` block is modelled by matching
on the `Except` result.
-/

/-! ## Python string primitives -/

/-- Python `str.strip()` on a character list: drop whitespace at both ends. -/
def pyStripChars (cs : List Char) : List Char :=
  ((cs.dropWhile Char.isWhitespace).reverse.dropWhile Char.isWhitespace).reverse

/-- Python `str.strip()`. -/
def pyStrip (s : String) : String := ⟨pyStripChars s.data⟩

/-- Python `str.lstrip()` (no arguments: strip leading whitespace). -/
def pyLStrip (s : String) : String := ⟨s.data.dropWhile Char.isWhitespace⟩

/-- Python `str.lstrip("\n\r ")`: strip the given leading characters. -/
def pyLStripNlCrSp (s : String) : String :=
  ⟨s.data.dropWhile (fun c => c = '\n' ∨ c = '\r' ∨ c = ' ')⟩

/-- Helper for `pySplitComma`: accumulate the current field (reversed). -/
def splitCommaChars : List Char → List Char → List (List Char)
  | [], acc => [acc.reverse]
  | c :: rest, acc =>
      if c = ',' then acc.reverse :: splitCommaChars rest []
      else splitCommaChars rest (c :: acc)

/-- Python `str.split(",")`. -/
def pySplitComma (s : String) : List String :=
  (splitCommaChars s.data []).map (fun cs => ⟨cs⟩)

/-- Python `str.startswith(p)`. -/
def pyStartsWith (s p : String) : Bool := p.data.isPrefixOf s.data

/-- Python truthiness of a string: non-empty strings are truthy. -/
def strTruthy (s : String) : Bool := s ≠ ""

/-- Python truthiness of an optional string (`None` and `""` are falsy). -/
def optStrTruthy : Option String → Bool
  | none => false
  | some s => strTruthy s

/-- Update an association list at a key, mirroring a Python dict/GSV store:
the first matching binding is replaced, otherwise the binding is appended. -/
def setAssoc (l : List (String × String)) (k v : String) : List (String × String) :=
  match l with
  | [] => [(k, v)]
  | (k', v') :: rest => if k' = k then (k, v) :: rest else (k', v') :: setAssoc rest k v

/-- Looking up the key just stored by `setAssoc` returns the stored value. -/
theorem lookup_setAssoc (l : List (String × String)) (k v : String) :
    (setAssoc l k v).lookup k = some v := by
  induction l with
  | nil => simp [setAssoc, List.lookup]
  | cons p rest ih =>
      obtain ⟨k', v'⟩ := p
      by_cases h : k' = k
      · simp [setAssoc, h, List.lookup]
      · simp only [setAssoc, if_neg h, List.lookup]
        have hbeq : (k == k') = false := by
          simp [BEq.beq]
          exact fun he => h he.symm
        simp [hbeq, ih]

/-! ## Model of the host GSV API (`gsv_utils.py`)

The host (`nuke`) owns a store of Graph Scope Variables.  A `Host` value
describes one environment: whether `nuke` importable, whether the root
`gsv` knob lookup raises, and, per primitive call, whether the call raises.
The store itself is a `GsvState`.  Host primitives return
`Except String` results: `.error` models a raised Python exception. -/

/-- The host's Graph Scope Variable store. -/
structure GsvState where
  values : List (String × String)
  listOptions : List (String × List String)
  listTyped : List String
  deriving DecidableEq

/-- One host environment: availability and failure injection per call. -/
structure Host where
  nukeAvailable : Bool
  rootGsvFails : Bool
  failSetDataType : String → Bool
  failSetListOptions : String → Bool
  failGetListOptions : String → Bool
  listOptionsNonIterable : String → Bool
  failSetValue : String → Bool
  failGetValue : String → Bool
  failCreateVariableGroup : String → Bool

/-- Host primitive `gsv.setDataType(path, List)`: may raise. -/
def Host.setDataType (h : Host) (st : GsvState) (path : String) :
    Except String GsvState :=
  if h.failSetDataType path then .error "RuntimeError"
  else .ok { st with listTyped := if path ∈ st.listTyped then st.listTyped else path :: st.listTyped }

/-- Host primitive `gsv.setListOptions(path, options)`: may raise. -/
def Host.setListOptions (h : Host) (st : GsvState) (path : String) (options : List String) :
    Except String GsvState :=
  if h.failSetListOptions path then .error "RuntimeError"
  else .ok { st with listOptions :=
    match st.listOptions.lookup path with
    | _ => (st.listOptions.filter (fun p => p.1 ≠ path)) ++ [(path, options)] }

/-- Host primitive `gsv.getListOptions(path)`: may raise; may return a
non-iterable object (modelled as `none`). -/
def Host.getListOptions (h : Host) (st : GsvState) (path : String) :
    Except String (Option (List String)) :=
  if h.failGetListOptions path then .error "RuntimeError"
  else if h.listOptionsNonIterable path then .ok none
  else .ok (some ((st.listOptions.lookup path).getD []))

/-- Host primitive `gsv.setGsvValue(path, value)`: may raise. -/
def Host.setGsvValue (h : Host) (st : GsvState) (path value : String) :
    Except String GsvState :=
  if h.failSetValue path then .error "RuntimeError"
  else .ok { st with values := setAssoc st.values path value }

/-- Host primitive `gsv.getGsvValue(path)`: raises when injected to fail or
when the path is absent. -/
def Host.getGsvValue (h : Host) (st : GsvState) (path : String) :
    Except String String :=
  if h.failGetValue path then .error "RuntimeError"
  else match st.values.lookup path with
       | some v => .ok v
       | none => .error "KeyError"

/-! ### The `gsv_utils` wrappers, line by line -/

/-- gsv_utils.get_root_gsv_knob: `None` when `nuke` is unavailable or the
root `gsv` knob lookup raises, otherwise the knob handle. -/
def get_root_gsv_knob (h : Host) : Option Unit :=
  if h.nukeAvailable = false then none
  else if h.rootGsvFails then none
  else some ()

/-- gsv_utils.ensure_list_datatype: set the List datatype, no-op on failure. -/
def ensure_list_datatype (h : Host) (st : GsvState) (path : String) :
    Except String GsvState :=
  match get_root_gsv_knob h with
  | none => .ok st
  | some _ =>
      match h.setDataType st path with
      | .ok st' => .ok st'
      | .error _ => .ok st

/-- gsv_utils.set_list_options: set list options, no-op on failure. -/
def set_list_options (h : Host) (st : GsvState) (path : String) (options : List String) :
    Except String GsvState :=
  match get_root_gsv_knob h with
  | none => .ok st
  | some _ =>
      match h.setListOptions st path options with
      | .ok st' => .ok st'
      | .error _ => .ok st

/-- gsv_utils.get_list_options: get list options, `[]` on error or when the
returned object is not iterable. -/
def get_list_options (h : Host) (st : GsvState) (path : String) :
    Except String (List String) :=
  match get_root_gsv_knob h with
  | none => .ok []
  | some _ =>
      match h.getListOptions st path with
      | .ok (some l) => .ok l
      | .ok none => .ok []
      | .error _ => .ok []

/-- gsv_utils.set_value: set the GSV value, no-op on failure. -/
def set_value (h : Host) (st : GsvState) (path value : String) :
    Except String GsvState :=
  match get_root_gsv_knob h with
  | none => .ok st
  | some _ =>
      match h.setGsvValue st path value with
      | .ok st' => .ok st'
      | .error _ => .ok st

/-- gsv_utils.get_value: get the GSV value, `None` on error. -/
def get_value (h : Host) (st : GsvState) (path : String) :
    Except String (Option String) :=
  match get_root_gsv_knob h with
  | none => .ok none
  | some _ =>
      match h.getGsvValue st path with
      | .ok v => .ok (some v)
      | .error _ => .ok none

/-- gsv_utils.ensure_screen_list: ensure `__default__.screen` exists, is a
List, has the given options, and apply a default selection. -/
def ensure_screen_list (h : Host) (st : GsvState) (screens : List String)
    (default_screen : Option String) : Except String GsvState :=
  match ensure_list_datatype h st "__default__.screen" with
  | .error e => .error e
  | .ok st1 =>
      match set_list_options h st1 "__default__.screen" screens with
      | .error e => .error e
      | .ok st2 =>
          match (match default_screen, screens with
                 | none, s0 :: _ => some s0
                 | dflt, _ => dflt : Option String) with
          | some s =>
              if strTruthy s then set_value h st2 "__default__.screen" s
              else .ok st2
          | none => .ok st2

/-- gsv_utils.create_variable_group: create a VariableGroup node, or `None`. -/
def create_variable_group (h : Host) (name : String) : Except String (Option Unit) :=
  if h.nukeAvailable = false then .ok none
  else if h.failCreateVariableGroup name then .ok none
  else .ok (some ())

/-! ### Characterization lemmas for the wrappers -/

/-- The root knob is available iff `nuke` imports and the lookup succeeds. -/
theorem get_root_gsv_knob_eq (h : Host) :
    get_root_gsv_knob h =
      (if h.nukeAvailable = true ∧ h.rootGsvFails = false then some () else none) := by
  unfold get_root_gsv_knob
  cases hA : h.nukeAvailable <;> cases hR : h.rootGsvFails <;> simp

/-- ensure_list_datatype never raises; it updates `listTyped` exactly when
the host is available and the primitive does not fail. -/
theorem ensure_list_datatype_eq (h : Host) (st : GsvState) (path : String) :
    ensure_list_datatype h st path =
      .ok (if h.nukeAvailable = true ∧ h.rootGsvFails = false ∧ h.failSetDataType path = false
           then { st with listTyped :=
                    if path ∈ st.listTyped then st.listTyped else path :: st.listTyped }
           else st) := by
  unfold ensure_list_datatype Host.setDataType
  rw [get_root_gsv_knob_eq]
  cases hA : h.nukeAvailable <;> cases hR : h.rootGsvFails <;>
    cases hD : h.failSetDataType path <;> simp [hD]

/-- set_list_options never raises; it updates `listOptions` exactly when
the host is available and the primitive does not fail. -/
theorem set_list_options_eq (h : Host) (st : GsvState) (path : String)
    (options : List String) :
    set_list_options h st path options =
      .ok (if h.nukeAvailable = true ∧ h.rootGsvFails = false ∧
              h.failSetListOptions path = false
           then { st with listOptions :=
                    (st.listOptions.filter (fun p => p.1 ≠ path)) ++ [(path, options)] }
           else st) := by
  unfold set_list_options Host.setListOptions
  rw [get_root_gsv_knob_eq]
  cases hA : h.nukeAvailable <;> cases hR : h.rootGsvFails <;>
    cases hL : h.failSetListOptions path <;> simp [hL]

/-- get_list_options never raises; it returns the stored options exactly when
the host is available and the primitive neither fails nor returns a
non-iterable object, and `[]` otherwise. -/
theorem get_list_options_eq (h : Host) (st : GsvState) (path : String) :
    get_list_options h st path =
      .ok (if h.nukeAvailable = true ∧ h.rootGsvFails = false ∧
              h.failGetListOptions path = false ∧ h.listOptionsNonIterable path = false
           then (st.listOptions.lookup path).getD []
           else []) := by
  unfold get_list_options Host.getListOptions
  rw [get_root_gsv_knob_eq]
  cases hA : h.nukeAvailable <;> cases hR : h.rootGsvFails <;>
    cases hG : h.failGetListOptions path <;> cases hN : h.listOptionsNonIterable path <;>
    simp [hG, hN]

/-- set_value never raises; it updates `values` exactly when the host is
available and the primitive does not fail. -/
theorem set_value_eq (h : Host) (st : GsvState) (path value : String) :
    set_value h st path value =
      .ok (if h.nukeAvailable = true ∧ h.rootGsvFails = false ∧
              h.failSetValue path = false
           then { st with values := setAssoc st.values path value }
           else st) := by
  unfold set_value Host.setGsvValue
  rw [get_root_gsv_knob_eq]
  cases hA : h.nukeAvailable <;> cases hR : h.rootGsvFails <;>
    cases hV : h.failSetValue path <;> simp [hV]

/-- get_value never raises; it returns the stored value exactly when the host
is available and the primitive does not fail, and `none` otherwise. -/
theorem get_value_eq (h : Host) (st : GsvState) (path : String) :
    get_value h st path =
      .ok (if h.nukeAvailable = true ∧ h.rootGsvFails = false ∧
              h.failGetValue path = false
           then st.values.lookup path
           else none) := by
  unfold get_value Host.getGsvValue
  rw [get_root_gsv_knob_eq]
  cases hA : h.nukeAvailable <;> cases hR : h.rootGsvFails <;>
    cases hV : h.failGetValue path <;>
    (simp [hV]; try (cases st.values.lookup path <;> simp))

/-- ensure_screen_list never raises. -/
theorem ensure_screen_list_isOk (h : Host) (st : GsvState) (screens : List String)
    (default_screen : Option String) :
    (ensure_screen_list h st screens default_screen).isOk = true := by
  unfold ensure_screen_list
  split
  · rename_i e hE
    rw [ensure_list_datatype_eq] at hE
    cases hE
  · rename_i st1 hE
    split
    · rename_i e hE2
      rw [set_list_options_eq] at hE2
      cases hE2
    · rename_i st2 hE2
      split
      · split
        · rw [set_value_eq]; rfl
        · rfl
      · rfl

/-- create_variable_group never raises; it returns `none` when `nuke` is
unavailable or the node constructor fails. -/
theorem create_variable_group_eq (h : Host) (name : String) :
    create_variable_group h name =
      .ok (if h.nukeAvailable = true ∧ h.failCreateVariableGroup name = false
           then some () else none) := by
  unfold create_variable_group
  cases hA : h.nukeAvailable <;> cases hC : h.failCreateVariableGroup name <;> simp [hC]
/-- When the host is unavailable, ensure_screen_list is a complete no-op. -/
theorem ensure_screen_list_down (h : Host) (st : GsvState) (screens : List String)
    (dflt : Option String)
    (hcond : ¬(h.nukeAvailable = true ∧ h.rootGsvFails = false)) :
    ensure_screen_list h st screens dflt = .ok st := by
  have held : ensure_list_datatype h st "__default__.screen" = .ok st := by
    rw [ensure_list_datatype_eq, if_neg (fun hc => hcond ⟨hc.1, hc.2.1⟩)]
  have hslo : set_list_options h st "__default__.screen" screens = .ok st := by
    rw [set_list_options_eq, if_neg (fun hc => hcond ⟨hc.1, hc.2.1⟩)]
  have hsv : ∀ v, set_value h st "__default__.screen" v = .ok st := fun v => by
    rw [set_value_eq, if_neg (fun hc => hcond ⟨hc.1, hc.2.1⟩)]
  unfold ensure_screen_list
  split
  · rename_i e hE
    rw [held] at hE
    cases hE
  · rename_i st1 hE
    rw [held] at hE
    injection hE with h1
    subst h1
    split
    · rename_i e hE2
      rw [hslo] at hE2
      cases hE2
    · rename_i st2 hE2
      rw [hslo] at hE2
      injection hE2 with h2
      subst h2
      split
      · rename_i s hd
        split
        · exact hsv s
        · rfl
      · rfl

/-! ### Claim theorems about `gsv_utils` -/

/-- C6: every gsv_utils function (get_value, set_value, get_list_options,
set_list_options, ensure_list_datatype, ensure_screen_list,
create_variable_group) never raises for any input — whatever calls into the
host API fail — and returns its documented default (`None`, `[]`, or no-op)
when the host API is unavailable or any call into it fails. -/
theorem gsv_utils_defensive (h : Host) (st : GsvState) (path value vgname : String)
    (screens : List String) (dflt : Option String) :
    (get_value h st path).isOk = true ∧
    (set_value h st path value).isOk = true ∧
    (get_list_options h st path).isOk = true ∧
    (set_list_options h st path screens).isOk = true ∧
    (ensure_list_datatype h st path).isOk = true ∧
    (ensure_screen_list h st screens dflt).isOk = true ∧
    (create_variable_group h vgname).isOk = true ∧
    (h.nukeAvailable = false ∨ h.rootGsvFails = true →
      get_value h st path = .ok none ∧
      get_list_options h st path = .ok [] ∧
      set_value h st path value = .ok st ∧
      set_list_options h st path screens = .ok st ∧
      ensure_list_datatype h st path = .ok st ∧
      ensure_screen_list h st screens dflt = .ok st) ∧
    (h.failGetValue path = true → get_value h st path = .ok none) ∧
    (h.failSetValue path = true → set_value h st path value = .ok st) ∧
    (h.failGetListOptions path = true → get_list_options h st path = .ok []) ∧
    (h.failSetListOptions path = true → set_list_options h st path screens = .ok st) ∧
    (h.failSetDataType path = true → ensure_list_datatype h st path = .ok st) ∧
    (h.nukeAvailable = false ∨ h.failCreateVariableGroup vgname = true →
      create_variable_group h vgname = .ok none) := by
  refine ⟨?_, ?_, ?_, ?_, ?_, ?_, ?_, ?_, ?_, ?_, ?_, ?_, ?_, ?_⟩
  · rw [get_value_eq]; rfl
  · rw [set_value_eq]; rfl
  · rw [get_list_options_eq]; rfl
  · rw [set_list_options_eq]; rfl
  · rw [ensure_list_datatype_eq]; rfl
  · exact ensure_screen_list_isOk h st screens dflt
  · rw [create_variable_group_eq]; rfl
  · intro hdown
    have hcond : ¬(h.nukeAvailable = true ∧ h.rootGsvFails = false) := by
      rcases hdown with hna | hrf
      · intro hc; rw [hna] at hc; cases hc.1
      · intro hc; rw [hrf] at hc; cases hc.2
    refine ⟨?_, ?_, ?_, ?_, ?_, ensure_screen_list_down h st screens dflt hcond⟩
    · rw [get_value_eq, if_neg (fun hc => hcond ⟨hc.1, hc.2.1⟩)]
    · rw [get_list_options_eq, if_neg (fun hc => hcond ⟨hc.1, hc.2.1⟩)]
    · rw [set_value_eq, if_neg (fun hc => hcond ⟨hc.1, hc.2.1⟩)]
    · rw [set_list_options_eq, if_neg (fun hc => hcond ⟨hc.1, hc.2.1⟩)]
    · rw [ensure_list_datatype_eq, if_neg (fun hc => hcond ⟨hc.1, hc.2.1⟩)]
  · intro hf
    rw [get_value_eq, if_neg (fun hc => by rw [hf] at hc; cases hc.2.2)]
  · intro hf
    rw [set_value_eq, if_neg (fun hc => by rw [hf] at hc; cases hc.2.2)]
  · intro hf
    rw [get_list_options_eq, if_neg (fun hc => by rw [hf] at hc; cases hc.2.2.1)]
  · intro hf
    rw [set_list_options_eq, if_neg (fun hc => by rw [hf] at hc; cases hc.2.2)]
  · intro hf
    rw [ensure_list_datatype_eq, if_neg (fun hc => by rw [hf] at hc; cases hc.2.2)]
  · intro hdown
    rcases hdown with hna | hcf
    · rw [create_variable_group_eq, if_neg (fun hc => by rw [hna] at hc; cases hc.1)]
    · rw [create_variable_group_eq, if_neg (fun hc => by rw [hcf] at hc; cases hc.2)]

/-- A host environment in which every call succeeds. -/
def okHost : Host :=
  ⟨true, false, fun _ => false, fun _ => false, fun _ => false, fun _ => false,
   fun _ => false, fun _ => false, fun _ => false⟩

/-- A host environment in which every primitive call raises. -/
def failHost : Host :=
  ⟨true, false, fun _ => true, fun _ => true, fun _ => true, fun _ => true,
   fun _ => true, fun _ => true, fun _ => true⟩

/-- A host environment in which `nuke` itself is unavailable. -/
def downHost : Host :=
  ⟨false, false, fun _ => false, fun _ => false, fun _ => false, fun _ => false,
   fun _ => false, fun _ => false, fun _ => false⟩

/-- Witness for `gsv_utils_defensive` at concrete hosts: with every primitive
raising, get/set return their defaults; with `nuke` unavailable,
ensure_screen_list is a no-op and create_variable_group returns `None`. -/
theorem gsv_utils_defensive_witness :
    get_value failHost ⟨[], [], []⟩ "__default__.screen" = .ok none ∧
    set_value failHost ⟨[], [], []⟩ "__default__.screen" "A" = .ok ⟨[], [], []⟩ ∧
    ensure_screen_list downHost ⟨[], [], []⟩ ["A"] none = .ok ⟨[], [], []⟩ ∧
    create_variable_group downHost "grp" = .ok none := by
  have hmain := gsv_utils_defensive failHost ⟨[], [], []⟩ "__default__.screen" "A" "grp" ["A"] none
  have hdown := gsv_utils_defensive downHost ⟨[], [], []⟩ "__default__.screen" "A" "grp" ["A"] none
  refine ⟨hmain.2.2.2.2.2.2.2.2.1 rfl, hmain.2.2.2.2.2.2.2.2.2.1 rfl, ?_, ?_⟩
  · exact (hdown.2.2.2.2.2.2.2.1 (Or.inl rfl)).2.2.2.2.2
  · exact hdown.2.2.2.2.2.2.2.2.2.2.2.2.2 (Or.inl rfl)

/-- ensure_list_datatype does not change the stored GSV values. -/
theorem ensure_list_datatype_values (h : Host) (st : GsvState) (path : String) :
    ∀ st', ensure_list_datatype h st path = .ok st' → st'.values = st.values := by
  intro st' hE
  rw [ensure_list_datatype_eq] at hE
  injection hE with h1
  subst h1
  split <;> rfl

/-- set_list_options does not change the stored GSV values. -/
theorem set_list_options_values (h : Host) (st : GsvState) (path : String)
    (options : List String) :
    ∀ st', set_list_options h st path options = .ok st' → st'.values = st.values := by
  intro st' hE
  rw [set_list_options_eq] at hE
  injection hE with h1
  subst h1
  split <;> rfl

/-- C10 counterexample: with a fully working host and screens `[""]` (non-empty)
and `default_screen = None`, ensure_screen_list does NOT set the value of
`__default__.screen` to the first element: the computed default `""` is falsy,
so no value is written at all. -/
theorem ensure_screen_list_blank_first_cex :
    ensure_screen_list okHost ⟨[], [], []⟩ [""] none =
      .ok ⟨[], [("__default__.screen", [""])], ["__default__.screen"]⟩ ∧
    (([] : List (String × String)).lookup "__default__.screen" = none ∧
     (none : Option String) ≠ some "") := by
  refine ⟨rfl, by decide, by decide⟩

/-- C10 (amended): ensure_screen_list applies a default selection when
`default_screen` is `None` and the first element of `screens` is a non-empty
string (and the host write succeeds); and it never sets a value when `screens`
is empty and `default_screen` is `None` or empty. -/
theorem ensure_screen_list_default_amended (h : Host) (st : GsvState)
    (screens : List String) (s0 : String) (dflt : Option String) :
    (screens.head? = some s0 → s0 ≠ "" →
     h.nukeAvailable = true → h.rootGsvFails = false →
     h.failSetValue "__default__.screen" = false →
     ∃ st', ensure_screen_list h st screens none = .ok st' ∧
            st'.values.lookup "__default__.screen" = some s0) ∧
    ((dflt = none ∨ dflt = some "") →
     ∃ st', ensure_screen_list h st [] dflt = .ok st' ∧ st'.values = st.values) := by
  constructor
  · intro hhead hs0 hA hR hV
    cases screens with
    | nil => cases hhead
    | cons a rest =>
        have ha : a = s0 := by injection hhead
        subst ha
        obtain ⟨st1, h1⟩ : ∃ st1, ensure_list_datatype h st "__default__.screen" = .ok st1 := by
          rw [ensure_list_datatype_eq]; exact ⟨_, rfl⟩
        have hv1 := ensure_list_datatype_values h st "__default__.screen" st1 h1
        obtain ⟨st2, h2⟩ :
            ∃ st2, set_list_options h st1 "__default__.screen" (a :: rest) = .ok st2 := by
          rw [set_list_options_eq]; exact ⟨_, rfl⟩
        have hv2 := set_list_options_values h st1 "__default__.screen" (a :: rest) st2 h2
        unfold ensure_screen_list
        split
        · rename_i e hE
          rw [h1] at hE
          cases hE
        · rename_i st1' hE
          rw [h1] at hE
          injection hE with hh
          subst hh
          split
          · rename_i e hE2
            rw [h2] at hE2
            cases hE2
          · rename_i st2' hE2
            rw [h2] at hE2
            injection hE2 with hh2
            subst hh2
            have hsa : strTruthy a = true := by
              unfold strTruthy
              exact decide_eq_true hs0
            show ∃ st', (if strTruthy a = true
                         then set_value h st2 "__default__.screen" a
                         else Except.ok st2) = Except.ok st' ∧
                        List.lookup "__default__.screen" st'.values = some a
            rw [if_pos hsa, set_value_eq, if_pos ⟨hA, hR, hV⟩]
            exact ⟨_, rfl, lookup_setAssoc _ _ _⟩
  · intro hdflt
    obtain ⟨st1, h1⟩ : ∃ st1, ensure_list_datatype h st "__default__.screen" = .ok st1 := by
      rw [ensure_list_datatype_eq]; exact ⟨_, rfl⟩
    have hv1 := ensure_list_datatype_values h st "__default__.screen" st1 h1
    obtain ⟨st2, h2⟩ :
        ∃ st2, set_list_options h st1 "__default__.screen" [] = .ok st2 := by
      rw [set_list_options_eq]; exact ⟨_, rfl⟩
    have hv2 := set_list_options_values h st1 "__default__.screen" [] st2 h2
    unfold ensure_screen_list
    split
    · rename_i e hE
      rw [h1] at hE
      cases hE
    · rename_i st1' hE
      rw [h1] at hE
      injection hE with hh
      subst hh
      split
      · rename_i e hE2
        rw [h2] at hE2
        cases hE2
      · rename_i st2' hE2
        rw [h2] at hE2
        injection hE2 with hh2
        subst hh2
        rcases hdflt with hd | hd <;> subst hd
        · exact ⟨st2, rfl, hv2.trans hv1⟩
        · exact ⟨st2, rfl, hv2.trans hv1⟩

/-- Witness for `ensure_screen_list_default_amended` at a concrete input:
with a working host and screens `["A"]`, the default selection `"A"` is
written; with empty screens and no default, the values are untouched. -/
theorem ensure_screen_list_default_amended_witness :
    (∃ st', ensure_screen_list okHost ⟨[], [], []⟩ ["A"] none = .ok st' ∧
            st'.values.lookup "__default__.screen" = some "A") ∧
    (∃ st', ensure_screen_list okHost ⟨[], [], []⟩ [] none = .ok st' ∧
            st'.values = ([] : List (String × String))) := by
  have hmain := ensure_screen_list_default_amended okHost ⟨[], [], []⟩ ["A"] "A" none
  exact ⟨hmain.1 rfl (by decide) rfl rfl rfl, hmain.2 (Or.inl rfl)⟩

/-! ## `ScreensManagerPanel._parse_screens` (`screens_manager.py`)

The loop

    seen = set(); unique = []
    for n in names:
        if n and n not in seen:
            unique.append(n); seen.add(n)

is modelled by `dedupKeepFirst names seen`, which produces the sequence of
elements appended by the loop when it starts with the given `seen` set. -/

/-- The de-duplication loop of `_parse_screens`: keep non-empty names that
have not been seen yet, first occurrence first. -/
def dedupKeepFirst : List String → List String → List String
  | [], _ => []
  | n :: rest, seen =>
      if strTruthy n = true ∧ ¬n ∈ seen then n :: dedupKeepFirst rest (n :: seen)
      else dedupKeepFirst rest seen

/-- screens_manager.ScreensManagerPanel._parse_screens: parse and
de-duplicate comma-separated screen names from the line edit text. -/
def _parse_screens (text : String) : List String :=
  let t := pyStrip text
  if strTruthy t = false then []
  else dedupKeepFirst ((pySplitComma t).map pyStrip) []

/-- Every element produced by the loop is non-empty, unseen, and drawn from
the input list. -/
theorem dedupKeepFirst_mem :
    ∀ (names seen : List String) (x : String), x ∈ dedupKeepFirst names seen →
      x ≠ "" ∧ ¬x ∈ seen ∧ x ∈ names := by
  intro names
  induction names with
  | nil =>
      intro seen x hx
      cases hx
  | cons n rest ih =>
      intro seen x hx
      unfold dedupKeepFirst at hx
      by_cases hc : strTruthy n = true ∧ ¬n ∈ seen
      · rw [if_pos hc] at hx
        rcases List.mem_cons.mp hx with hxn | hx'
        · subst hxn
          exact ⟨of_decide_eq_true hc.1, hc.2, List.mem_cons_self _ _⟩
        · obtain ⟨h1, h2, h3⟩ := ih (n :: seen) x hx'
          exact ⟨h1, fun hxseen => h2 (List.mem_cons_of_mem _ hxseen),
                 List.mem_cons_of_mem _ h3⟩
      · rw [if_neg hc] at hx
        obtain ⟨h1, h2, h3⟩ := ih seen x hx
        exact ⟨h1, h2, List.mem_cons_of_mem _ h3⟩

/-- The loop never emits an element twice. -/
theorem dedupKeepFirst_nodup :
    ∀ (names seen : List String), (dedupKeepFirst names seen).Nodup := by
  intro names
  induction names with
  | nil =>
      intro seen
      exact List.Pairwise.nil
  | cons n rest ih =>
      intro seen
      unfold dedupKeepFirst
      by_cases hc : strTruthy n = true ∧ ¬n ∈ seen
      · rw [if_pos hc]
        refine List.nodup_cons.mpr ⟨?_, ih (n :: seen)⟩
        intro hmem
        exact (dedupKeepFirst_mem rest (n :: seen) n hmem).2.1 (List.mem_cons_self _ _)
      · rw [if_neg hc]
        exact ih seen

/-- The loop emits elements in the order of their first occurrence: the
index (of the first occurrence) in the input list is strictly increasing
along the output. -/
theorem dedupKeepFirst_first_occurrence :
    ∀ (names seen : List String),
      (dedupKeepFirst names seen).Pairwise
        (fun x y => names.indexOf x < names.indexOf y) := by
  intro names
  induction names with
  | nil =>
      intro seen
      exact List.Pairwise.nil
  | cons n rest ih =>
      intro seen
      unfold dedupKeepFirst
      by_cases hc : strTruthy n = true ∧ ¬n ∈ seen
      · rw [if_pos hc]
        constructor
        · intro y hy
          have hmem := dedupKeepFirst_mem rest (n :: seen) y hy
          have hyn : n ≠ y := fun he => hmem.2.1 (he ▸ List.mem_cons_self n seen)
          rw [List.indexOf_cons_self, List.indexOf_cons_ne rest hyn]
          exact Nat.succ_pos _
        · refine (ih (n :: seen)).imp_of_mem ?_
          intro a b ha hb hab
          have hne_a : n ≠ a :=
            fun he => (dedupKeepFirst_mem rest (n :: seen) a ha).2.1
              (he ▸ List.mem_cons_self n seen)
          have hne_b : n ≠ b :=
            fun he => (dedupKeepFirst_mem rest (n :: seen) b hb).2.1
              (he ▸ List.mem_cons_self n seen)
          rw [List.indexOf_cons_ne rest hne_a, List.indexOf_cons_ne rest hne_b]
          exact Nat.succ_lt_succ hab
      · rw [if_neg hc]
        rcases not_and_or.mp hc with hn | hseen
        · have hn0 : n = "" := by
            by_cases he : n = ""
            · exact he
            · exact absurd (decide_eq_true he) hn
          refine (ih seen).imp_of_mem ?_
          intro a b ha hb hab
          have hne_a : n ≠ a := fun he =>
            (dedupKeepFirst_mem rest seen a ha).1 (he ▸ hn0.symm ▸ rfl)
          have hne_b : n ≠ b := fun he =>
            (dedupKeepFirst_mem rest seen b hb).1 (he ▸ hn0.symm ▸ rfl)
          rw [List.indexOf_cons_ne rest hne_a, List.indexOf_cons_ne rest hne_b]
          exact Nat.succ_lt_succ hab
        · have hnseen : n ∈ seen := not_not.mp hseen
          refine (ih seen).imp_of_mem ?_
          intro a b ha hb hab
          have hne_a : n ≠ a := fun he =>
            (dedupKeepFirst_mem rest seen a ha).2.1 (he ▸ hnseen)
          have hne_b : n ≠ b := fun he =>
            (dedupKeepFirst_mem rest seen b hb).2.1 (he ▸ hnseen)
          rw [List.indexOf_cons_ne rest hne_a, List.indexOf_cons_ne rest hne_b]
          exact Nat.succ_lt_succ hab

/-- C9: _parse_screens always returns a list of trimmed, non-empty screen
names with duplicates removed while preserving first-occurrence order: the
result contains no empty string, no element appears twice, every element is
the trim of one of the comma-separated fields, and elements appear in the
order of their first occurrence among the trimmed fields. -/
theorem parse_screens_spec (text : String) :
    (∀ s ∈ _parse_screens text, s ≠ "") ∧
    (_parse_screens text).Nodup ∧
    (∀ s ∈ _parse_screens text, ∃ c ∈ pySplitComma (pyStrip text), s = pyStrip c) ∧
    (_parse_screens text).Pairwise
      (fun x y => ((pySplitComma (pyStrip text)).map pyStrip).indexOf x <
                  ((pySplitComma (pyStrip text)).map pyStrip).indexOf y) := by
  unfold _parse_screens
  by_cases ht : strTruthy (pyStrip text) = false
  · rw [if_pos ht]
    exact ⟨fun s hs => absurd hs (List.not_mem_nil s), List.Pairwise.nil,
           fun s hs => absurd hs (List.not_mem_nil s), List.Pairwise.nil⟩
  · rw [if_neg ht]
    refine ⟨?_, dedupKeepFirst_nodup _ _, ?_, dedupKeepFirst_first_occurrence _ _⟩
    · intro s hs
      exact (dedupKeepFirst_mem _ _ s hs).1
    · intro s hs
      have hmem := (dedupKeepFirst_mem _ _ s hs).2.2
      obtain ⟨c, hc, hcs⟩ := List.mem_map.mp hmem
      exact ⟨c, hc, hcs.symm⟩

/-- Witness for `parse_screens_spec` at a concrete input: parsing
`"A,B, A"` yields elements that are non-empty, and the result has no
duplicates. -/
theorem parse_screens_spec_witness :
    ("A" : String) ≠ "" ∧ (_parse_screens "A,B, A").Nodup := by
  have hmain := parse_screens_spec "A,B, A"
  exact ⟨hmain.1 "A" (by decide), hmain.2.1⟩

/-! ## Render-time screen-context save/restore

`BCN_multishot_toolset/init.py` does

    from render_hooks import install_render_callbacks
    install_render_callbacks()

but `render_hooks.py` in this snapshot no longer defines
`install_render_callbacks` (its `__all__` exports only the wrapper
helpers).  The mechanism itself is therefore modelled from the
specification: a four-field render context pushed onto a save/restore
stack by a before-frame-evaluation callback and popped by the matching
after-frame-evaluation callback. -/

/-- Modelled from the spec: the four-field struct pushed/popped around the
callback pair (the node being rendered, its scope selection, the
previously-active global scope value, and whether one was set). -/
structure RenderContext where
  nodeName : String
  scope : String
  savedValue : Option String
  hadValue : Bool
  deriving DecidableEq

/-- Modelled from the spec: the host state seen by the render callbacks —
the current value of the global scope variable and the save/restore stack. -/
structure RenderHostState where
  gsv : Option String
  stack : List RenderContext
  deriving DecidableEq

/-- Modelled from the spec: the before-frame-evaluation callback for a node
carrying scope-selection field `scope`.  It saves the previously-active
global scope value on the stack and sets the global scope variable to the
field's value. -/
def beforeFrameRender (nodeName scope : String) (s : RenderHostState) : RenderHostState :=
  { gsv := some scope,
    stack := ⟨nodeName, scope, s.gsv, s.gsv.isSome⟩ :: s.stack }

/-- Modelled from the spec: the after-frame-evaluation callback.  It pops
the most recent render context and restores the saved global scope value.
It runs whether the render succeeded or failed. -/
def afterFrameRender (s : RenderHostState) : RenderHostState :=
  match s.stack with
  | [] => s
  | ctx :: rest => { gsv := ctx.savedValue, stack := rest }

/-- Modelled from the spec: the host's callback registry.  The host offers
before/after frame-evaluation hooks, and nodes can also carry injected
per-node script text (`beforeRender` knobs), kept here to state that the
mechanism does not use them. -/
structure CallbackRegistry where
  beforeFrameRenderCallbacks : List (String → String → RenderHostState → RenderHostState)
  afterFrameRenderCallbacks : List (RenderHostState → RenderHostState)
  injectedNodeScripts : List (String × String)

/-- Modelled from the spec: `install_render_callbacks` registers the
before/after frame-evaluation callback pair with the host; it injects no
per-node script text. -/
def install_render_callbacks (r : CallbackRegistry) : CallbackRegistry :=
  { r with
      beforeFrameRenderCallbacks := r.beforeFrameRenderCallbacks ++ [beforeFrameRender],
      afterFrameRenderCallbacks := r.afterFrameRenderCallbacks ++ [afterFrameRender] }

/-- A (possibly nested, possibly failing) render of a node carrying a scope
selection: the host runs the before callback, performs the render — during
which it may re-entrantly run nested renders — and runs the after callback
whether or not the render succeeded. -/
inductive RenderTree where
  | render (nodeName scope : String) (succeeded : Bool) (subRenders : List RenderTree)

mutual

/-- Run one render: before callback, nested renders, after callback.  The
`succeeded` flag does not influence the callbacks — the host invokes the
after callback on failure too. -/
def runRenderTree : RenderTree → RenderHostState → RenderHostState
  | .render nodeName scope _succeeded subs, s =>
      afterFrameRender (runRenderList subs (beforeFrameRender nodeName scope s))

/-- Run a sequence of renders left to right. -/
def runRenderList : List RenderTree → RenderHostState → RenderHostState
  | [], s => s
  | t :: ts, s => runRenderList ts (runRenderTree t s)

end

/-- A list of renders that each preserve the state preserves the state. -/
theorem runRenderList_preserves (l : List RenderTree)
    (ih : ∀ t ∈ l, ∀ s, runRenderTree t s = s) :
    ∀ s, runRenderList l s = s := by
  induction l with
  | nil =>
      intro s
      rfl
  | cons t ts ihl =>
      intro s
      rw [runRenderList, ih t (List.mem_cons_self _ _) s]
      exact ihl (fun t' ht' => ih t' (List.mem_cons_of_mem _ ht')) s

/-- Every render — nested and failing renders included — restores the full
render host state it started from. -/
theorem runRenderTree_preserves :
    ∀ (t : RenderTree) (s : RenderHostState), runRenderTree t s = s := by
  have H : ∀ (n : Nat) (t : RenderTree), sizeOf t ≤ n → ∀ s, runRenderTree t s = s := by
    intro n
    induction n with
    | zero =>
        intro t ht
        cases t with
        | render nm sc ok subs =>
            simp at ht
    | succ n ihn =>
        intro t ht s
        cases t with
        | render nm sc ok subs =>
            have hsubs : ∀ t' ∈ subs, ∀ s', runRenderTree t' s' = s' := by
              intro t' ht' s'
              apply ihn
              have h1 : sizeOf t' < sizeOf subs := List.sizeOf_lt_of_mem ht'
              have h2 : sizeOf (RenderTree.render nm sc ok subs) =
                  1 + sizeOf nm + sizeOf sc + sizeOf ok + sizeOf subs := by
                simp
              omega
            rw [runRenderTree, runRenderList_preserves subs hsubs]
            cases s with
            | mk g stk =>
                rfl
  exact fun t s => H (sizeOf t) t (le_refl _) s

/-! ### Claim theorems about the render-time mechanism -/

/-- C1: the render-time screen-context mechanism maintains a save/restore
stack of the global scope variable: for every sequence of nested (and
possibly failing) renders, each completed render restores the value that
was active when it began, in LIFO order, and push/pop balance holds — the
whole host state (current value and stack) returns to what it was. -/
theorem render_stack_lifo_balance (t : RenderTree) (s : RenderHostState) :
    runRenderTree t s = s ∧
    (runRenderTree t s).gsv = s.gsv ∧
    (runRenderTree t s).stack = s.stack := by
  refine ⟨runRenderTree_preserves t s, ?_, ?_⟩
  · rw [runRenderTree_preserves t s]
  · rw [runRenderTree_preserves t s]

/-- C2: before every render of a node carrying a scope-selection field, the
global scope variable is set to that field's value and the previous value
is saved; and this is done by the registered before/after
frame-evaluation callback pair, not by injected per-node script text. -/
theorem before_frame_sets_and_saves (r : CallbackRegistry)
    (nodeName scope : String) (s : RenderHostState) :
    (install_render_callbacks r).beforeFrameRenderCallbacks =
      r.beforeFrameRenderCallbacks ++ [beforeFrameRender] ∧
    (install_render_callbacks r).afterFrameRenderCallbacks =
      r.afterFrameRenderCallbacks ++ [afterFrameRender] ∧
    (install_render_callbacks r).injectedNodeScripts = r.injectedNodeScripts ∧
    (beforeFrameRender nodeName scope s).gsv = some scope ∧
    (beforeFrameRender nodeName scope s).stack =
      ⟨nodeName, scope, s.gsv, s.gsv.isSome⟩ :: s.stack := by
  exact ⟨rfl, rfl, rfl, rfl, rfl⟩

/-- C3: after every render of a node carrying a scope-selection field
completes — whether the render succeeded or failed, and whatever nested
renders ran inside it — the previously-active value of the global scope
variable is restored. -/
theorem after_render_restores (nodeName scope : String) (succeeded : Bool)
    (subs : List RenderTree) (s : RenderHostState) :
    (runRenderTree (.render nodeName scope succeeded subs) s).gsv = s.gsv := by
  rw [runRenderTree_preserves]

/-! ## Node-graph model for the standalone utilities

`elbows.py` and `split_lightgroups_from_pass.py` manipulate Nuke's node
graph through a small API surface: class name, position knobs, input
slots, channels, and a few value knobs.  A `Node` carries exactly those
observables; a `Graph` is the script's node list plus a fresh-id counter
for nodes created by the scripts. -/

/-- A node of the host's node graph, with the knobs the two standalone
scripts read or write. -/
structure Node where
  id : Nat
  klass : String
  xpos : Int
  ypos : Int
  inputs : List (Option Nat)
  in1 : String
  label : String
  operation : String
  noteFontSizeTwice : Int
  screenHeight : Int
  channels : List String
  deriving DecidableEq

/-- The script's node graph: all nodes plus a counter for fresh node ids. -/
structure Graph where
  nodes : List Node
  nextId : Nat
  deriving DecidableEq

/-- Find a node by id. -/
def Graph.findNode (g : Graph) (i : Nat) : Option Node :=
  g.nodes.find? (fun n => n.id = i)

/-- The node connected to input slot `i` (Python `node.input(i)`): `none`
when the slot is out of range, unconnected, or dangling. -/
def Graph.inputNode (g : Graph) (n : Node) (i : Nat) : Option Node :=
  match n.inputs.getD i none with
  | none => none
  | some j => g.findNode j

/-! ### `elbows.py` -/

/-- elbows.already_has_dot_at_position: whether `connection_node` already
has a Dot wired into one of its inputs at exactly `(x, y)`. -/
def already_has_dot_at_position (g : Graph) (connection_node : Option Node)
    (x y : Int) : Bool :=
  match connection_node with
  | none => false
  | some n =>
      (List.range n.inputs.length).any (fun idx =>
        match Graph.inputNode g n idx with
        | some inp => decide (inp.klass = "Dot" ∧ inp.xpos = x ∧ inp.ypos = y)
        | none => false)

/-- The Dot node created by elbows.create_dot_between_nodes: placed at the
input's x and the current node's y, wired from the input node, with the
note font sized to half the current node's on-screen height (the font size
is stored doubled to stay in integer arithmetic). -/
def newDotNode (g : Graph) (input_node current_node : Node) : Node :=
  { id := g.nextId, klass := "Dot",
    xpos := input_node.xpos, ypos := current_node.ypos,
    inputs := [some input_node.id],
    in1 := "", label := "", operation := "",
    noteFontSizeTwice := current_node.screenHeight,
    screenHeight := 0, channels := [] }

/-- elbows.create_dot_between_nodes: create a Dot between `input_node` and
`current_node` for slot `input_index`, unless a Dot is already wired to
`current_node` at that exact position. -/
def create_dot_between_nodes (g : Graph) (input_node current_node : Node)
    (input_index : Nat) : Graph :=
  let dot_x := input_node.xpos
  let dot_y := current_node.ypos
  if already_has_dot_at_position g (some current_node) dot_x dot_y then g
  else
    let dot := newDotNode g input_node current_node
    { nodes :=
        (g.nodes.map (fun n =>
          if n.id = current_node.id
          then { n with inputs := n.inputs.set input_index (some dot.id) }
          else n)) ++ [dot],
      nextId := g.nextId + 1 }

/-- The body of elbows.process_node's per-input check: insert a Dot when the
input sits higher in the graph and is horizontally misaligned. -/
def processEdgeStep (g : Graph) (input_node current_node : Node)
    (input_index : Nat) : Graph :=
  if input_node.ypos < current_node.ypos ∧ input_node.xpos ≠ current_node.xpos
  then create_dot_between_nodes g input_node current_node input_index
  else g

mutual

/-- elbows.process_node: recursively process each node's inputs (fuelled;
the Python recursion terminates because `visited` grows). -/
def process_node (fuel : Nat) (g : Graph) (visited : List Nat) (nodeId : Nat) :
    Graph × List Nat :=
  match fuel with
  | 0 => (g, visited)
  | fuel' + 1 =>
      if nodeId ∈ visited then (g, visited)
      else process_node_inputs fuel' g (nodeId :: visited) nodeId 0

/-- The `for i in range(node.inputs())` loop of elbows.process_node. -/
def process_node_inputs (fuel : Nat) (g : Graph) (visited : List Nat)
    (nodeId : Nat) (i : Nat) : Graph × List Nat :=
  match fuel with
  | 0 => (g, visited)
  | fuel' + 1 =>
      match g.findNode nodeId with
      | none => (g, visited)
      | some node =>
          if i < node.inputs.length then
            match Graph.inputNode g node i with
            | none => process_node_inputs fuel' g visited nodeId (i + 1)
            | some inp =>
                let g1 := processEdgeStep g inp node i
                let r := process_node fuel' g1 visited inp.id
                process_node_inputs fuel' r.1 r.2 nodeId (i + 1)
          else (g, visited)

end

/-- elbows.organize_node_streams: process every selected node with a shared
visited set. -/
def organize_node_streams (fuel : Nat) (g : Graph) (selected : List Nat) : Graph :=
  (selected.foldl (fun acc nid => process_node fuel acc.1 acc.2 nid) (g, [])).1

/-- Shorthand for building plain nodes in concrete examples. -/
def mkSimpleNode (i : Nat) (k : String) (x y : Int) (ins : List (Option Nat)) : Node :=
  { id := i, klass := k, xpos := x, ypos := y, inputs := ins,
    in1 := "", label := "", operation := "", noteFontSizeTwice := 0,
    screenHeight := 0, channels := [] }

/-- C7: organize_node_streams inserts a routing Dot between a processed node
and its input exactly when the input sits higher (strictly smaller yPos) and
is horizontally misaligned (different xPos), placing the Dot at the input's
x and the node's y, wired input → dot → node; and it never creates a second
Dot when the node already has a Dot input wired at that exact position. -/
theorem elbows_dot_insertion (g : Graph) (inp node : Node) (i : Nat) :
    (¬(inp.ypos < node.ypos ∧ inp.xpos ≠ node.xpos) →
        processEdgeStep g inp node i = g) ∧
    (already_has_dot_at_position g (some node) inp.xpos node.ypos = true →
        processEdgeStep g inp node i = g) ∧
    ((inp.ypos < node.ypos ∧ inp.xpos ≠ node.xpos) →
     already_has_dot_at_position g (some node) inp.xpos node.ypos = false →
        (processEdgeStep g inp node i =
          { nodes :=
              (g.nodes.map (fun n =>
                if n.id = node.id
                then { n with inputs := n.inputs.set i (some g.nextId) }
                else n)) ++ [newDotNode g inp node],
            nextId := g.nextId + 1 } ∧
         (newDotNode g inp node).klass = "Dot" ∧
         (newDotNode g inp node).xpos = inp.xpos ∧
         (newDotNode g inp node).ypos = node.ypos ∧
         (newDotNode g inp node).inputs = [some inp.id])) := by
  refine ⟨?_, ?_, ?_⟩
  · intro hng
    unfold processEdgeStep
    rw [if_neg hng]
  · intro hdot
    unfold processEdgeStep
    by_cases hg : inp.ypos < node.ypos ∧ inp.xpos ≠ node.xpos
    · rw [if_pos hg]
      unfold create_dot_between_nodes
      simp only [hdot, if_true]
    · rw [if_neg hg]
  · intro hg hdot
    unfold processEdgeStep
    rw [if_pos hg]
    unfold create_dot_between_nodes
    simp only [hdot, Bool.false_eq_true, if_false]
    exact ⟨rfl, rfl, rfl, rfl, rfl⟩

/-- Witness for `elbows_dot_insertion`: a node at (100, 100) fed from a node
at (0, 0) gets a Dot at (0, 100) wired in between. -/
theorem elbows_dot_insertion_witness :
    processEdgeStep ⟨[mkSimpleNode 0 "Grade" 0 0 [], mkSimpleNode 1 "Blur" 100 100 [some 0]], 2⟩
        (mkSimpleNode 0 "Grade" 0 0 []) (mkSimpleNode 1 "Blur" 100 100 [some 0]) 0 =
      { nodes := [mkSimpleNode 0 "Grade" 0 0 [],
                  mkSimpleNode 1 "Blur" 100 100 [some 2],
                  newDotNode ⟨[mkSimpleNode 0 "Grade" 0 0 [], mkSimpleNode 1 "Blur" 100 100 [some 0]], 2⟩
                    (mkSimpleNode 0 "Grade" 0 0 []) (mkSimpleNode 1 "Blur" 100 100 [some 0])],
        nextId := 3 } := by
  have h := (elbows_dot_insertion
    ⟨[mkSimpleNode 0 "Grade" 0 0 [], mkSimpleNode 1 "Blur" 100 100 [some 0]], 2⟩
    (mkSimpleNode 0 "Grade" 0 0 []) (mkSimpleNode 1 "Blur" 100 100 [some 0]) 0).2.2
    (by decide) (by decide)
  exact h.1.trans (by decide)

/-! ### `split_lightgroups_from_pass.py` -/

/-- Lexicographic comparison of character lists by code point, mirroring
Python string ordering used by `list.sort()`. -/
def charsLe : List Char → List Char → Bool
  | [], _ => true
  | _ :: _, [] => false
  | a :: as, b :: bs =>
      if a.toNat < b.toNat then true
      else if b.toNat < a.toNat then false
      else charsLe as bs

/-- Python string `<=`, used to model `list.sort()` on layer names. -/
def StrLe (a b : String) : Prop := charsLe a.data b.data = true

instance : DecidableRel StrLe :=
  fun a b => inferInstanceAs (Decidable (charsLe a.data b.data = true))

/-- The code-point order is total. -/
theorem charsLe_total : ∀ as bs : List Char, charsLe as bs = true ∨ charsLe bs as = true := by
  intro as
  induction as with
  | nil =>
      intro bs
      left
      rfl
  | cons a as ih =>
      intro bs
      cases bs with
      | nil =>
          right
          rfl
      | cons b bs' =>
          by_cases h1 : a.toNat < b.toNat
          · left
            unfold charsLe
            rw [if_pos h1]
          · by_cases h2 : b.toNat < a.toNat
            · right
              unfold charsLe
              rw [if_pos h2]
            · rcases ih bs' with h | h
              · left
                unfold charsLe
                rw [if_neg h1, if_neg h2]
                exact h
              · right
                unfold charsLe
                rw [if_neg h2, if_neg h1]
                exact h

/-- The code-point order is transitive. -/
theorem charsLe_trans : ∀ as bs cs : List Char,
    charsLe as bs = true → charsLe bs cs = true → charsLe as cs = true := by
  intro as
  induction as with
  | nil =>
      intro bs cs hab hbc
      rfl
  | cons a as ih =>
      intro bs cs hab hbc
      cases bs with
      | nil =>
          simp [charsLe] at hab
      | cons b bs' =>
          cases cs with
          | nil =>
              simp [charsLe] at hbc
          | cons c cs' =>
              unfold charsLe at hab hbc ⊢
              by_cases hab1 : a.toNat < b.toNat
              · by_cases hbc1 : b.toNat < c.toNat
                · rw [if_pos (Nat.lt_trans hab1 hbc1)]
                · by_cases hbc2 : c.toNat < b.toNat
                  · rw [if_neg hbc1, if_pos hbc2] at hbc
                    cases hbc
                  · have hac : a.toNat < c.toNat := by omega
                    rw [if_pos hac]
              · by_cases hab2 : b.toNat < a.toNat
                · rw [if_neg hab1, if_pos hab2] at hab
                  cases hab
                · rw [if_neg hab1, if_neg hab2] at hab
                  by_cases hbc1 : b.toNat < c.toNat
                  · have hac : a.toNat < c.toNat := by omega
                    rw [if_pos hac]
                  · by_cases hbc2 : c.toNat < b.toNat
                    · rw [if_neg hbc1, if_pos hbc2] at hbc
                      cases hbc
                    · rw [if_neg hbc1, if_neg hbc2] at hbc
                      have h1 : ¬a.toNat < c.toNat := by omega
                      have h2 : ¬c.toNat < a.toNat := by omega
                      rw [if_neg h1, if_neg h2]
                      exact ih bs' cs' hab hbc

instance : IsTotal String StrLe := ⟨fun a b => charsLe_total a.data b.data⟩

instance : IsTrans String StrLe := ⟨fun a b c => charsLe_trans a.data b.data c.data⟩

/-- Python `channel.split(".")[0]`: the layer part of a channel name. -/
def channelLayer (channel : String) : String :=
  ⟨channel.data.takeWhile (fun c => c ≠ '.')⟩

/-- A Shuffle2 node as created by the script: wired to the source node,
selecting `layer`, labelled with it. -/
def mkShuffle (nid inputId : Nat) (layer : String) (x y : Int) : Node :=
  { id := nid, klass := "Shuffle2", xpos := x, ypos := y,
    inputs := [some inputId], in1 := layer, label := layer,
    operation := "", noteFontSizeTwice := 0, screenHeight := 0, channels := [] }

/-- The `for i, layer in enumerate(lightgroup_layers)` creation loop:
one Shuffle2 per variant, spaced 120 px apart, 150 px below the original. -/
def buildShuffles (baseId inputId : Nat) (ox oy : Int) : Nat → List String → List Node
  | _, [] => []
  | k, layer :: rest =>
      mkShuffle (baseId + k) inputId layer (ox + 120 * (k : Int)) (oy + 150) ::
      buildShuffles baseId inputId ox oy (k + 1) rest

/-- A Merge2 (plus) node as created by the script: B input (slot 0) is the
accumulated result, A input (slot 1) the next lightgroup shuffle. -/
def mkMerge (nid bId aId : Nat) (x y : Int) : Node :=
  { id := nid, klass := "Merge2", xpos := x, ypos := y,
    inputs := [some bId, some aId], in1 := "", label := "",
    operation := "plus", noteFontSizeTwice := 0, screenHeight := 0, channels := [] }

/-- The merge-chain creation loop: produces the merge nodes (ids from `mid`)
and the id of the final output of the chain (`cur` when no merge is needed). -/
def buildMerges (oy : Int) : Nat → Nat → List Node → List Node × Nat
  | _, cur, [] => ([], cur)
  | mid, cur, s :: rest =>
      let m := mkMerge mid cur s.id s.xpos (oy + 270)
      let r := buildMerges oy (mid + 1) m.id rest
      (m :: r.1, r.2)

/-- One step of the reconnection loop: if the node is a dependent, every
input slot that pointed at the original shuffle is repointed at the final
output. -/
def reconnectOne (deps : List Nat) (oldId newId : Nat) (n : Node) : Node :=
  if n.id ∈ deps
  then { n with inputs := n.inputs.map (fun s => if s = some oldId then some newId else s) }
  else n

/-- The reconnection loop over all nodes. -/
def reconnectDependents (nodes : List Node) (deps : List Nat) (oldId newId : Nat) :
    List Node :=
  nodes.map (reconnectOne deps oldId newId)

/-- The lightgroup variant layers of `pass_name` among the input node's
channels: distinct layer names starting with the pass name followed by an
underscore. -/
def lightgroupVariants (inp : Node) (pass_name : String) : List String :=
  (inp.channels.map channelLayer).dedup.filter
    (fun l => pyStartsWith l (pass_name ++ "_"))

/-- The final step of split_lightgroups_from_pass on the original shuffle:
disconnect it from its input (slot 0) and move it 200 px to the left. -/
def disconnectOrig (sid : Nat) (ox oy : Int) : Node → Node := fun n =>
  if n.id = sid
  then { n with inputs := n.inputs.set 0 none, xpos := ox - 200, ypos := oy }
  else n

/-- The graph assembly of split_lightgroups_from_pass, parameterized by the
sorted variant list: create the per-variant shuffles and the merge chain,
reconnect dependents, and disconnect and move the original shuffle. -/
def assembleSplit (g : Graph) (sid : Nat) (sel inp : Node) (sorted : List String) :
    Graph :=
  let original_x := sel.xpos
  let original_y := sel.ypos
  let deps := (g.nodes.filter (fun n => n.inputs.any (fun s => s = some sid))).map Node.id
  let shuffles := buildShuffles g.nextId inp.id original_x original_y 0 sorted
  let fin := match shuffles with
             | [] => sid
             | s0 :: rest => (buildMerges original_y (g.nextId + shuffles.length) s0.id rest).2
  let merges := match shuffles with
                | [] => []
                | s0 :: rest => (buildMerges original_y (g.nextId + shuffles.length) s0.id rest).1
  let nodes1 := g.nodes ++ shuffles ++ merges
  let nodes2 := reconnectDependents nodes1 deps sid fin
  let nodes3 := nodes2.map (disconnectOrig sid original_x original_y)
  { nodes := nodes3, nextId := g.nextId + shuffles.length + merges.length }

/-- The body of split_lightgroups_from_pass after all validation passed:
sort the variants (`lightgroup_layers.sort()`) and assemble the new graph. -/
def split_happy (g : Graph) (sid : Nat) (sel inp : Node) : Graph :=
  assembleSplit g sid sel inp
    (List.insertionSort StrLe (lightgroupVariants inp sel.in1))

/-- split_lightgroups_from_pass.split_lightgroups_from_pass: validate the
selection and split the selected Shuffle2 into per-lightgroup branches
merged back together.  `.error` carries the `nuke.message` text shown when
the script bails out. -/
def split_lightgroups_from_pass (g : Graph) (selectedId : Option Nat) :
    Except String Graph :=
  match selectedId with
  | none => .error "Please select a Shuffle node first."
  | some sid =>
      match g.findNode sid with
      | none => .error "Please select a Shuffle node first."
      | some sel =>
          if sel.klass ≠ "Shuffle2" then .error "Selected node must be a Shuffle2 node."
          else if sel.in1 = "" then .error "The selected Shuffle2 node's 'in1' knob is empty."
          else
            match Graph.inputNode g sel 0 with
            | none => .error "The selected Shuffle node has no input."
            | some inp =>
                if lightgroupVariants inp sel.in1 = []
                then .error "No lightgroup variants found for pass."
                else .ok (split_happy g sid sel inp)

/-- buildShuffles produces one node per layer. -/
theorem buildShuffles_length (baseId inputId : Nat) (ox oy : Int) :
    ∀ (ls : List String) (k : Nat),
      (buildShuffles baseId inputId ox oy k ls).length = ls.length := by
  intro ls
  induction ls with
  | nil =>
      intro k
      rfl
  | cons layer rest ih =>
      intro k
      unfold buildShuffles
      rw [List.length_cons, List.length_cons, ih (k + 1)]

/-- The `in1` knobs of the created shuffles are exactly the layer list, in
order. -/
theorem buildShuffles_map_in1 (baseId inputId : Nat) (ox oy : Int) :
    ∀ (ls : List String) (k : Nat),
      (buildShuffles baseId inputId ox oy k ls).map Node.in1 = ls := by
  intro ls
  induction ls with
  | nil =>
      intro k
      rfl
  | cons layer rest ih =>
      intro k
      unfold buildShuffles
      rw [List.map_cons, ih (k + 1)]
      rfl

/-- Every created shuffle is a Shuffle2 wired to the source node, with a
fresh id in the allocated window. -/
theorem buildShuffles_mem (baseId inputId : Nat) (ox oy : Int) :
    ∀ (ls : List String) (k : Nat), ∀ n ∈ buildShuffles baseId inputId ox oy k ls,
      n.klass = "Shuffle2" ∧ n.inputs = [some inputId] ∧
      baseId + k ≤ n.id ∧ n.id < baseId + k + ls.length := by
  intro ls
  induction ls with
  | nil =>
      intro k n hn
      cases hn
  | cons layer rest ih =>
      intro k n hn
      unfold buildShuffles at hn
      rcases List.mem_cons.mp hn with hn0 | hn'
      · subst hn0
        refine ⟨rfl, rfl, Nat.le_refl _, ?_⟩
        simp [mkShuffle]
      · obtain ⟨h1, h2, h3, h4⟩ := ih (k + 1) n hn'
        refine ⟨h1, h2, by omega, ?_⟩
        rw [List.length_cons]
        omega

/-- Indexing into the created shuffles: the `j`-th shuffle selects the
`j`-th layer and gets id `baseId + k + j`. -/
theorem buildShuffles_getElem (baseId inputId : Nat) (ox oy : Int) :
    ∀ (ls : List String) (k j : Nat) (layer : String), ls[j]? = some layer →
      (buildShuffles baseId inputId ox oy k ls)[j]? =
        some (mkShuffle (baseId + k + j) inputId layer
                (ox + 120 * ((k + j : Nat) : Int)) (oy + 150)) := by
  intro ls
  induction ls with
  | nil =>
      intro k j layer hl
      cases hl
  | cons l0 rest ih =>
      intro k j layer hl
      cases j with
      | zero =>
          rw [List.getElem?_cons_zero] at hl
          injection hl with he
          subst he
          unfold buildShuffles
          rw [List.getElem?_cons_zero]
          norm_num
      | succ j' =>
          rw [List.getElem?_cons_succ] at hl
          unfold buildShuffles
          rw [List.getElem?_cons_succ, ih (k + 1) j' layer hl]
          have h1 : baseId + (k + 1) + j' = baseId + k + (j' + 1) := by omega
          have h2 : (k + 1) + j' = k + (j' + 1) := by omega
          rw [h1, h2]

/-- buildMerges produces one merge per remaining shuffle. -/
theorem buildMerges_length (oy : Int) :
    ∀ (ss : List Node) (mid cur : Nat),
      (buildMerges oy mid cur ss).1.length = ss.length := by
  intro ss
  induction ss with
  | nil =>
      intro mid cur
      rfl
  | cons s rest ih =>
      intro mid cur
      unfold buildMerges
      rw [List.length_cons, List.length_cons, ih (mid + 1)]

/-- The final output of the merge chain: the accumulator when there is
nothing to merge, otherwise the last created merge node. -/
theorem buildMerges_final (oy : Int) :
    ∀ (ss : List Node) (mid cur : Nat),
      (buildMerges oy mid cur ss).2 =
        (if ss.length = 0 then cur else mid + ss.length - 1) := by
  intro ss
  induction ss with
  | nil =>
      intro mid cur
      rfl
  | cons s rest ih =>
      intro mid cur
      unfold buildMerges
      rw [ih (mid + 1)]
      cases rest with
      | nil => simp [mkMerge]
      | cons r rest' =>
          simp only [List.length_cons]
          rw [if_neg (by omega : ¬rest'.length + 1 = 0),
              if_neg (by omega : ¬rest'.length + 1 + 1 = 0)]
          omega

/-- Indexing into the merge chain: the `j`-th merge has id `mid + j`, its B
input (slot 0) is the previous chain output and its A input (slot 1) is the
`j`-th remaining shuffle. -/
theorem buildMerges_getElem (oy : Int) :
    ∀ (ss : List Node) (mid cur j : Nat) (s : Node), ss[j]? = some s →
      (buildMerges oy mid cur ss).1[j]? =
        some (mkMerge (mid + j) (if j = 0 then cur else mid + j - 1)
                s.id s.xpos (oy + 270)) := by
  intro ss
  induction ss with
  | nil =>
      intro mid cur j s hs
      cases hs
  | cons s0 rest ih =>
      intro mid cur j s hs
      cases j with
      | zero =>
          rw [List.getElem?_cons_zero] at hs
          injection hs with he
          subst he
          unfold buildMerges
          rw [List.getElem?_cons_zero]
          norm_num
      | succ j' =>
          rw [List.getElem?_cons_succ] at hs
          unfold buildMerges
          rw [List.getElem?_cons_succ, ih (mid + 1) (mkMerge mid cur s0.id s0.xpos (oy + 270)).id j' s hs]
          have hid : (mkMerge mid cur s0.id s0.xpos (oy + 270)).id = mid := rfl
          rw [hid]
          cases j' with
          | zero =>
              norm_num
          | succ j'' =>
              have h1 : ¬(j'' + 1 = 0) := by omega
              have h2 : ¬(j'' + 1 + 1 = 0) := by omega
              rw [if_neg h1, if_neg h2]
              have h3 : mid + 1 + (j'' + 1) = mid + (j'' + 1 + 1) := by omega
              rw [h3]

/-- In a node list with no duplicate ids, two members with the same id are
the same node. -/
theorem eq_of_mem_of_nodup_ids :
    ∀ (l : List Node), (l.map Node.id).Nodup →
      ∀ a b : Node, a ∈ l → b ∈ l → a.id = b.id → a = b := by
  intro l
  induction l with
  | nil =>
      intro _ a b ha
      cases ha
  | cons n rest ih =>
      intro hnd a b ha hb hid
      rw [List.map_cons, List.nodup_cons] at hnd
      rcases List.mem_cons.mp ha with ha0 | ha' <;>
        rcases List.mem_cons.mp hb with hb0 | hb'
      · rw [ha0, hb0]
      · subst ha0
        exact absurd (hid ▸ List.mem_map_of_mem Node.id hb') hnd.1
      · subst hb0
        exact absurd (hid ▸ List.mem_map_of_mem Node.id ha') hnd.1
      · exact ih hnd.2 a b ha' hb' hid

/-- Every node of the merge chain is a Merge2 (plus) with a fresh id in the
allocated window. -/
theorem buildMerges_mem (oy : Int) :
    ∀ (ss : List Node) (mid cur : Nat), ∀ m ∈ (buildMerges oy mid cur ss).1,
      m.klass = "Merge2" ∧ m.operation = "plus" ∧
      mid ≤ m.id ∧ m.id < mid + ss.length := by
  intro ss
  induction ss with
  | nil =>
      intro mid cur m hm
      cases hm
  | cons s rest ih =>
      intro mid cur m hm
      unfold buildMerges at hm
      rcases List.mem_cons.mp hm with hm0 | hm'
      · subst hm0
        refine ⟨rfl, rfl, Nat.le_refl _, ?_⟩
        have hid : (mkMerge mid cur s.id s.xpos (oy + 270)).id = mid := rfl
        rw [hid, List.length_cons]
        omega
      · obtain ⟨h1, h2, h3, h4⟩ := ih (mid + 1) _ m hm'
        refine ⟨h1, h2, by omega, ?_⟩
        rw [List.length_cons]
        omega

/-! Proof-layer names for the sub-terms of `assembleSplit` on a non-empty
sorted variant list. -/

/-- The first created shuffle (index 0). -/
def shuf0 (g : Graph) (sel inp : Node) (v0 : String) : Node :=
  mkShuffle (g.nextId + 0) inp.id v0 (sel.xpos + 120 * ((0 : Nat) : Int)) (sel.ypos + 150)

/-- The remaining created shuffles (indices from 1). -/
def shufRest (g : Graph) (sel inp : Node) (vrest : List String) : List Node :=
  buildShuffles g.nextId inp.id sel.xpos sel.ypos (0 + 1) vrest

/-- All created shuffles. -/
def shufAll (g : Graph) (sel inp : Node) (v0 : String) (vrest : List String) : List Node :=
  shuf0 g sel inp v0 :: shufRest g sel inp vrest

/-- The created merge chain. -/
def mergesAll (g : Graph) (sel inp : Node) (v0 : String) (vrest : List String) : List Node :=
  (buildMerges sel.ypos (g.nextId + (shufAll g sel inp v0 vrest).length)
    (g.nextId + 0) (shufRest g sel inp vrest)).1

/-- The id of the final output of the merge chain. -/
def finId (g : Graph) (sel inp : Node) (v0 : String) (vrest : List String) : Nat :=
  (buildMerges sel.ypos (g.nextId + (shufAll g sel inp v0 vrest).length)
    (g.nextId + 0) (shufRest g sel inp vrest)).2

/-- The ids of the original shuffle's dependents. -/
def depsOf (g : Graph) (sid : Nat) : List Nat :=
  (g.nodes.filter (fun n => n.inputs.any (fun s => s = some sid))).map Node.id

/-- Structural form of `assembleSplit` on a non-empty sorted list. -/
theorem assembleSplit_eq (g : Graph) (sid : Nat) (sel inp : Node)
    (v0 : String) (vrest : List String) :
    assembleSplit g sid sel inp (v0 :: vrest) =
      { nodes :=
          (reconnectDependents
            (g.nodes ++ shufAll g sel inp v0 vrest ++ mergesAll g sel inp v0 vrest)
            (depsOf g sid) sid (finId g sel inp v0 vrest)).map
            (disconnectOrig sid sel.xpos sel.ypos),
        nextId := g.nextId + (shufAll g sel inp v0 vrest).length +
                  (mergesAll g sel inp v0 vrest).length } := rfl

/-- The number of created shuffles is the number of variants. -/
theorem shufAll_length (g : Graph) (sel inp : Node) (v0 : String) (vrest : List String) :
    (shufAll g sel inp v0 vrest).length = vrest.length + 1 := by
  unfold shufAll shufRest
  rw [List.length_cons, buildShuffles_length]

/-- The number of created merges is one less than the number of variants. -/
theorem mergesAll_length (g : Graph) (sel inp : Node) (v0 : String) (vrest : List String) :
    (mergesAll g sel inp v0 vrest).length = vrest.length := by
  unfold mergesAll shufRest
  rw [buildMerges_length, buildShuffles_length]

/-- The final chain output: the first shuffle when there is a single
variant, otherwise the last merge. -/
theorem finId_eq (g : Graph) (sel inp : Node) (v0 : String) (vrest : List String) :
    finId g sel inp v0 vrest =
      (if vrest.length = 0 then g.nextId
       else g.nextId + (vrest.length + 1) + vrest.length - 1) := by
  unfold finId shufRest
  rw [buildMerges_final, buildShuffles_length, shufAll_length]
  by_cases h0 : vrest.length = 0
  · rw [if_pos h0, if_pos h0]
    omega
  · rw [if_neg h0, if_neg h0]

/-- Reconnection preserves node ids. -/
theorem reconnectOne_id (deps : List Nat) (oldId newId : Nat) (n : Node) :
    (reconnectOne deps oldId newId n).id = n.id := by
  unfold reconnectOne
  by_cases h : n.id ∈ deps
  · rw [if_pos h]
  · rw [if_neg h]

/-- Disconnection preserves node ids. -/
theorem disconnectOrig_id (sid : Nat) (ox oy : Int) (n : Node) :
    (disconnectOrig sid ox oy n).id = n.id := by
  unfold disconnectOrig
  by_cases h : n.id = sid
  · rw [if_pos h]
  · rw [if_neg h]

/-- A node that is not a dependent is untouched by reconnection. -/
theorem reconnectOne_not_dep (deps : List Nat) (oldId newId : Nat) (n : Node)
    (h : ¬n.id ∈ deps) : reconnectOne deps oldId newId n = n := by
  unfold reconnectOne
  rw [if_neg h]

/-- A node other than the original shuffle is untouched by disconnection. -/
theorem disconnectOrig_ne (sid : Nat) (ox oy : Int) (n : Node)
    (h : ¬n.id = sid) : disconnectOrig sid ox oy n = n := by
  unfold disconnectOrig
  rw [if_neg h]

/-- Dependents are pre-existing nodes, so their ids are below the fresh-id
counter. -/
theorem depsOf_lt (g : Graph) (sid : Nat)
    (hfresh : ∀ n ∈ g.nodes, n.id < g.nextId) :
    ∀ d ∈ depsOf g sid, d < g.nextId := by
  intro d hd
  obtain ⟨n, hn, hdn⟩ := List.mem_map.mp hd
  exact hdn ▸ hfresh n (List.mem_filter.mp hn).1

/-- With unique node ids, a node's id is a dependent id exactly when one of
its input slots points at the original shuffle. -/
theorem depsOf_mem_iff (g : Graph) (sid : Nat)
    (hnodup : (g.nodes.map Node.id).Nodup) :
    ∀ n ∈ g.nodes,
      (n.id ∈ depsOf g sid ↔ n.inputs.any (fun s => s = some sid) = true) := by
  intro n hn
  constructor
  · intro hd
    obtain ⟨n2, hn2, hdn⟩ := List.mem_map.mp hd
    obtain ⟨hn2g, hn2p⟩ := List.mem_filter.mp hn2
    have heq := eq_of_mem_of_nodup_ids g.nodes hnodup n2 n hn2g hn hdn
    exact heq ▸ hn2p
  · intro hany
    exact List.mem_map_of_mem Node.id (List.mem_filter.mpr ⟨hn, hany⟩)

/-- C5: split_lightgroups_from_pass, given a selected Shuffle2 whose 'in1'
pass has at least one lightgroup variant layer among its input's channels,
creates one new Shuffle2 per variant (in sorted layer order) wired to the
input, combines them with a chain of exactly `variants - 1` Merge (plus)
nodes where the B input is the accumulated result and the A input the next
variant, reconnects every dependent of the original shuffle to the final
output, and disconnects the original shuffle from its input. -/
theorem split_lightgroups_spec
    (g : Graph) (sid : Nat) (sel inp : Node) (v0 : String) (vrest : List String)
    (hsel : g.findNode sid = some sel)
    (hk : sel.klass = "Shuffle2")
    (hp : sel.in1 ≠ "")
    (hin : Graph.inputNode g sel 0 = some inp)
    (hfresh : ∀ n ∈ g.nodes, n.id < g.nextId)
    (hnodup : (g.nodes.map Node.id).Nodup)
    (hnoself : ∀ s ∈ sel.inputs, s ≠ some sid)
    (hvs : List.insertionSort StrLe (lightgroupVariants inp sel.in1) = v0 :: vrest) :
    ∃ g', split_lightgroups_from_pass g (some sid) = .ok g' ∧
      (v0 :: vrest).Pairwise StrLe ∧
      (v0 :: vrest).Perm (lightgroupVariants inp sel.in1) ∧
      ((g'.nodes.filter (fun n =>
          decide (g.nextId ≤ n.id ∧ n.id < g.nextId + (vrest.length + 1)))).map Node.in1 =
        v0 :: vrest) ∧
      (∀ n ∈ g'.nodes, g.nextId ≤ n.id → n.id < g.nextId + (vrest.length + 1) →
          n.klass = "Shuffle2" ∧ n.inputs = [some inp.id]) ∧
      g'.nodes.length = g.nodes.length + (vrest.length + 1) + vrest.length ∧
      (∀ j, j < vrest.length →
          ∃ m ∈ g'.nodes, m.id = g.nextId + (vrest.length + 1) + j ∧
            m.klass = "Merge2" ∧ m.operation = "plus" ∧
            m.inputs = [some (if j = 0 then g.nextId
                              else g.nextId + (vrest.length + 1) + j - 1),
                        some (g.nextId + (j + 1))]) ∧
      (∀ n ∈ g.nodes, n.id ≠ sid →
          ∃ n' ∈ g'.nodes, n'.id = n.id ∧
            n'.inputs = (if n.inputs.any (fun s => s = some sid)
                         then n.inputs.map (fun s =>
                            if s = some sid then some (finId g sel inp v0 vrest) else s)
                         else n.inputs)) ∧
      finId g sel inp v0 vrest =
        (if vrest.length = 0 then g.nextId
         else g.nextId + (vrest.length + 1) + vrest.length - 1) ∧
      (∃ sel' ∈ g'.nodes, sel'.id = sid ∧ sel'.inputs = sel.inputs.set 0 none) := by
  have hsel' := hsel
  unfold Graph.findNode at hsel'
  have hselmem : sel ∈ g.nodes := List.mem_of_find?_eq_some hsel'
  have hselid : sel.id = sid := by
    have h := List.find?_some hsel'
    simp only [decide_eq_true_eq] at h
    exact h
  have hsid : sid < g.nextId := hselid ▸ hfresh sel hselmem
  have hvar : lightgroupVariants inp sel.in1 ≠ [] := by
    intro h0
    have hperm := List.perm_insertionSort StrLe (lightgroupVariants inp sel.in1)
    rw [hvs, h0] at hperm
    exact absurd hperm.eq_nil (by simp)
  have hG : split_happy g sid sel inp = assembleSplit g sid sel inp (v0 :: vrest) := by
    unfold split_happy
    rw [hvs]
  have hnodes : (assembleSplit g sid sel inp (v0 :: vrest)).nodes =
      (g.nodes ++ shufAll g sel inp v0 vrest ++ mergesAll g sel inp v0 vrest).map
        ((disconnectOrig sid sel.xpos sel.ypos) ∘
         (reconnectOne (depsOf g sid) sid (finId g sel inp v0 vrest))) := by
    rw [assembleSplit_eq]
    unfold reconnectDependents
    rw [List.map_map]
  have hfreshmap : ∀ n : Node, g.nextId ≤ n.id →
      ((disconnectOrig sid sel.xpos sel.ypos) ∘
       (reconnectOne (depsOf g sid) sid (finId g sel inp v0 vrest))) n = n := by
    intro n hle
    have hnd : ¬n.id ∈ depsOf g sid := by
      intro hmem
      have := depsOf_lt g sid hfresh n.id hmem
      omega
    show (disconnectOrig sid sel.xpos sel.ypos)
      ((reconnectOne (depsOf g sid) sid (finId g sel inp v0 vrest)) n) = n
    rw [reconnectOne_not_dep _ _ _ _ hnd]
    exact disconnectOrig_ne _ _ _ _ (by omega)
  have hcomp_id : ∀ n : Node,
      (((disconnectOrig sid sel.xpos sel.ypos) ∘
        (reconnectOne (depsOf g sid) sid (finId g sel inp v0 vrest))) n).id = n.id := by
    intro n
    show ((disconnectOrig sid sel.xpos sel.ypos)
      ((reconnectOne (depsOf g sid) sid (finId g sel inp v0 vrest)) n)).id = n.id
    rw [disconnectOrig_id, reconnectOne_id]
  have hSR_len : (shufRest g sel inp vrest).length = vrest.length := by
    unfold shufRest
    rw [buildShuffles_length]
  have hS_mem : ∀ n ∈ shufAll g sel inp v0 vrest,
      n.klass = "Shuffle2" ∧ n.inputs = [some inp.id] ∧
      g.nextId ≤ n.id ∧ n.id < g.nextId + (vrest.length + 1) := by
    intro n hn
    rcases List.mem_cons.mp hn with h0 | hr
    · subst h0
      refine ⟨rfl, rfl, ?_, ?_⟩
      · rw [show (shuf0 g sel inp v0).id = g.nextId + 0 from rfl]
        omega
      · rw [show (shuf0 g sel inp v0).id = g.nextId + 0 from rfl]
        omega
    · obtain ⟨h1, h2, h3, h4⟩ :=
        buildShuffles_mem g.nextId inp.id sel.xpos sel.ypos vrest (0 + 1) n hr
      exact ⟨h1, h2, by omega, by omega⟩
  have hM_mem : ∀ m ∈ mergesAll g sel inp v0 vrest,
      m.klass = "Merge2" ∧ m.operation = "plus" ∧
      g.nextId + (vrest.length + 1) ≤ m.id ∧
      m.id < g.nextId + (vrest.length + 1) + vrest.length := by
    intro m hm
    obtain ⟨h1, h2, h3, h4⟩ := buildMerges_mem sel.ypos (shufRest g sel inp vrest)
      (g.nextId + (shufAll g sel inp v0 vrest).length) (g.nextId + 0) m hm
    rw [shufAll_length] at h3 h4
    rw [hSR_len] at h4
    exact ⟨h1, h2, h3, h4⟩
  have hmapS : (shufAll g sel inp v0 vrest).map
      ((disconnectOrig sid sel.xpos sel.ypos) ∘
       (reconnectOne (depsOf g sid) sid (finId g sel inp v0 vrest))) =
      shufAll g sel inp v0 vrest := by
    have h1 : (shufAll g sel inp v0 vrest).map
        ((disconnectOrig sid sel.xpos sel.ypos) ∘
         (reconnectOne (depsOf g sid) sid (finId g sel inp v0 vrest))) =
        (shufAll g sel inp v0 vrest).map id :=
      List.map_congr_left (fun a ha => hfreshmap a (hS_mem a ha).2.2.1)
    rw [h1, List.map_id]
  have hmapM : (mergesAll g sel inp v0 vrest).map
      ((disconnectOrig sid sel.xpos sel.ypos) ∘
       (reconnectOne (depsOf g sid) sid (finId g sel inp v0 vrest))) =
      mergesAll g sel inp v0 vrest := by
    have h1 : (mergesAll g sel inp v0 vrest).map
        ((disconnectOrig sid sel.xpos sel.ypos) ∘
         (reconnectOne (depsOf g sid) sid (finId g sel inp v0 vrest))) =
        (mergesAll g sel inp v0 vrest).map id :=
      List.map_congr_left
        (fun a ha => hfreshmap a (Nat.le_trans (by omega) (hM_mem a ha).2.2.1))
    rw [h1, List.map_id]
  refine ⟨split_happy g sid sel inp, ?_, ?_, ?_, ?_, ?_, ?_, ?_, ?_, ?_, ?_⟩
  · unfold split_lightgroups_from_pass
    simp only [hsel, hin]
    rw [if_neg (show ¬sel.klass ≠ "Shuffle2" from fun hh => hh hk), if_neg hp,
        if_neg hvar]
  · exact hvs ▸ List.sorted_insertionSort StrLe (lightgroupVariants inp sel.in1)
  · exact hvs ▸ List.perm_insertionSort StrLe (lightgroupVariants inp sel.in1)
  · rw [hG, hnodes, List.map_append, List.map_append, List.filter_append,
        List.filter_append, hmapS, hmapM]
    have hfA : ((g.nodes.map
        ((disconnectOrig sid sel.xpos sel.ypos) ∘
         (reconnectOne (depsOf g sid) sid (finId g sel inp v0 vrest)))).filter
        (fun n => decide (g.nextId ≤ n.id ∧ n.id < g.nextId + (vrest.length + 1)))) = [] := by
      refine List.filter_eq_nil_iff.mpr ?_
      intro a ha
      obtain ⟨n, hnA, hna⟩ := List.mem_map.mp ha
      have hid : a.id = n.id := hna ▸ hcomp_id n
      have hlt := hfresh n hnA
      simp only [decide_eq_true_eq]
      omega
    have hfS : ((shufAll g sel inp v0 vrest).filter
        (fun n => decide (g.nextId ≤ n.id ∧ n.id < g.nextId + (vrest.length + 1)))) =
        shufAll g sel inp v0 vrest := by
      refine List.filter_eq_self.mpr ?_
      intro a ha
      simp only [decide_eq_true_eq]
      exact ⟨(hS_mem a ha).2.2.1, (hS_mem a ha).2.2.2⟩
    have hfM : ((mergesAll g sel inp v0 vrest).filter
        (fun n => decide (g.nextId ≤ n.id ∧ n.id < g.nextId + (vrest.length + 1)))) = [] := by
      refine List.filter_eq_nil_iff.mpr ?_
      intro a ha
      have := (hM_mem a ha).2.2.1
      simp only [decide_eq_true_eq]
      omega
    rw [hfA, hfS, hfM, List.nil_append, List.append_nil]
    unfold shufAll shufRest
    rw [List.map_cons, buildShuffles_map_in1]
    rfl
  · rw [hG, hnodes, List.map_append, List.map_append]
    intro n hn hge hlt
    rcases List.mem_append.mp hn with hn1 | hnM
    · rcases List.mem_append.mp hn1 with hnA | hnS
      · obtain ⟨n0, hn0, hc⟩ := List.mem_map.mp hnA
        have h1 : n.id = n0.id := hc ▸ hcomp_id n0
        have h2 := hfresh n0 hn0
        exfalso
        omega
      · rw [hmapS] at hnS
        exact ⟨(hS_mem n hnS).1, (hS_mem n hnS).2.1⟩
    · rw [hmapM] at hnM
      have := (hM_mem n hnM).2.2.1
      exfalso
      omega
  · rw [hG, hnodes, List.length_map, List.length_append, List.length_append,
        shufAll_length, mergesAll_length]
  · intro j hj
    have hjv : vrest[j]? = some vrest[j] := List.getElem?_eq_getElem hj
    have hshufj : (shufRest g sel inp vrest)[j]? =
        some (mkShuffle (g.nextId + (0 + 1) + j) inp.id vrest[j]
          (sel.xpos + 120 * ((((0 + 1) + j : Nat)) : Int)) (sel.ypos + 150)) := by
      unfold shufRest
      exact buildShuffles_getElem g.nextId inp.id sel.xpos sel.ypos vrest (0 + 1) j
        vrest[j] hjv
    have hmemM : (mergesAll g sel inp v0 vrest)[j]? =
        some (mkMerge ((g.nextId + (shufAll g sel inp v0 vrest).length) + j)
          (if j = 0 then g.nextId + 0
           else (g.nextId + (shufAll g sel inp v0 vrest).length) + j - 1)
          ((mkShuffle (g.nextId + (0 + 1) + j) inp.id vrest[j]
            (sel.xpos + 120 * ((((0 + 1) + j : Nat)) : Int)) (sel.ypos + 150)).id)
          ((mkShuffle (g.nextId + (0 + 1) + j) inp.id vrest[j]
            (sel.xpos + 120 * ((((0 + 1) + j : Nat)) : Int)) (sel.ypos + 150)).xpos)
          (sel.ypos + 270)) := by
      unfold mergesAll
      exact buildMerges_getElem sel.ypos (shufRest g sel inp vrest)
        (g.nextId + (shufAll g sel inp v0 vrest).length) (g.nextId + 0) j _ hshufj
    have hmM : _ ∈ mergesAll g sel inp v0 vrest := List.getElem?_mem hmemM
    rw [hG, hnodes, List.map_append, List.map_append]
    refine ⟨_, List.mem_append.mpr (Or.inr (hmapM.symm ▸ hmM)), ?_, rfl, rfl, ?_⟩
    · rw [show (mkMerge ((g.nextId + (shufAll g sel inp v0 vrest).length) + j)
          (if j = 0 then g.nextId + 0
           else (g.nextId + (shufAll g sel inp v0 vrest).length) + j - 1)
          ((mkShuffle (g.nextId + (0 + 1) + j) inp.id vrest[j]
            (sel.xpos + 120 * ((((0 + 1) + j : Nat)) : Int)) (sel.ypos + 150)).id)
          ((mkShuffle (g.nextId + (0 + 1) + j) inp.id vrest[j]
            (sel.xpos + 120 * ((((0 + 1) + j : Nat)) : Int)) (sel.ypos + 150)).xpos)
          (sel.ypos + 270)).id =
          (g.nextId + (shufAll g sel inp v0 vrest).length) + j from rfl]
      rw [shufAll_length]
    · show [some (if j = 0 then g.nextId + 0
             else (g.nextId + (shufAll g sel inp v0 vrest).length) + j - 1),
            some ((mkShuffle (g.nextId + (0 + 1) + j) inp.id vrest[j]
              (sel.xpos + 120 * ((((0 + 1) + j : Nat)) : Int)) (sel.ypos + 150)).id)] =
          [some (if j = 0 then g.nextId else g.nextId + (vrest.length + 1) + j - 1),
           some (g.nextId + (j + 1))]
      rw [show (mkShuffle (g.nextId + (0 + 1) + j) inp.id vrest[j]
            (sel.xpos + 120 * ((((0 + 1) + j : Nat)) : Int)) (sel.ypos + 150)).id =
          g.nextId + (0 + 1) + j from rfl]
      rw [shufAll_length]
      have hA : g.nextId + (0 + 1) + j = g.nextId + (j + 1) := by omega
      rw [hA]
      by_cases h0 : j = 0
      · rw [if_pos h0, if_pos h0]
        norm_num
      · rw [if_neg h0, if_neg h0]
  · rw [hG, hnodes, List.map_append, List.map_append]
    intro n hn hne
    refine ⟨((disconnectOrig sid sel.xpos sel.ypos) ∘
             (reconnectOne (depsOf g sid) sid (finId g sel inp v0 vrest))) n,
            List.mem_append.mpr (Or.inl (List.mem_append.mpr
              (Or.inl (List.mem_map_of_mem _ hn)))), hcomp_id n, ?_⟩
    show ((disconnectOrig sid sel.xpos sel.ypos)
      ((reconnectOne (depsOf g sid) sid (finId g sel inp v0 vrest)) n)).inputs = _
    rw [disconnectOrig_ne _ _ _ _ (by rw [reconnectOne_id]; exact hne)]
    by_cases hdep : n.inputs.any (fun s => s = some sid) = true
    · rw [if_pos hdep]
      have hmem : n.id ∈ depsOf g sid := (depsOf_mem_iff g sid hnodup n hn).mpr hdep
      unfold reconnectOne
      rw [if_pos hmem]
    · rw [if_neg hdep]
      have hmem : ¬n.id ∈ depsOf g sid := fun hc =>
        hdep ((depsOf_mem_iff g sid hnodup n hn).mp hc)
      rw [reconnectOne_not_dep _ _ _ _ hmem]
  · exact finId_eq g sel inp v0 vrest
  · rw [hG, hnodes, List.map_append, List.map_append]
    have hsidnd : ¬sel.id ∈ depsOf g sid := by
      intro hc
      have hany := (depsOf_mem_iff g sid hnodup sel hselmem).mp hc
      obtain ⟨s, hs, hsp⟩ := List.any_eq_true.mp hany
      exact hnoself s hs (of_decide_eq_true hsp)
    refine ⟨((disconnectOrig sid sel.xpos sel.ypos) ∘
             (reconnectOne (depsOf g sid) sid (finId g sel inp v0 vrest))) sel,
            List.mem_append.mpr (Or.inl (List.mem_append.mpr
              (Or.inl (List.mem_map_of_mem _ hselmem)))), ?_, ?_⟩
    · rw [hcomp_id sel, hselid]
    · show ((disconnectOrig sid sel.xpos sel.ypos)
        ((reconnectOne (depsOf g sid) sid (finId g sel inp v0 vrest)) sel)).inputs = _
      rw [reconnectOne_not_dep _ _ _ _ hsidnd]
      unfold disconnectOrig
      rw [if_pos hselid]

/-- Concrete example for the split script: a Read with two lightgroup
variants of the `spec` pass. -/
def splitExampleSrc : Node :=
  { id := 0, klass := "Read", xpos := 0, ypos := 0, inputs := [],
    in1 := "", label := "", operation := "", noteFontSizeTwice := 0,
    screenHeight := 0, channels := ["spec_A.red", "spec_B.red", "beauty.red"] }

/-- The selected Shuffle2 of the example, reading the `spec` pass. -/
def splitExampleShuffle : Node :=
  { id := 1, klass := "Shuffle2", xpos := 0, ypos := 100, inputs := [some 0],
    in1 := "spec", label := "", operation := "", noteFontSizeTwice := 0,
    screenHeight := 0, channels := [] }

/-- A downstream node depending on the example shuffle. -/
def splitExampleDep : Node :=
  { id := 2, klass := "Grade", xpos := 0, ypos := 200, inputs := [some 1],
    in1 := "", label := "", operation := "", noteFontSizeTwice := 0,
    screenHeight := 0, channels := [] }

/-- The example graph: source, shuffle, dependent. -/
def splitExampleGraph : Graph :=
  { nodes := [splitExampleSrc, splitExampleShuffle, splitExampleDep], nextId := 3 }

/-- Witness for `split_lightgroups_spec` on the example graph: the split
succeeds and the result has the three original nodes plus two shuffles and
one merge. -/
theorem split_lightgroups_spec_witness :
    (split_lightgroups_from_pass splitExampleGraph (some 1)).isOk = true ∧
    (match split_lightgroups_from_pass splitExampleGraph (some 1) with
     | .ok g' => g'.nodes.length = 6
     | .error _ => False) := by
  obtain ⟨g', h1, hrest⟩ :=
    split_lightgroups_spec splitExampleGraph 1 splitExampleShuffle splitExampleSrc
      "spec_A" ["spec_B"]
      (by decide) rfl (by decide) (by decide) (by decide) (by decide)
      (by decide) (by decide)
  have hlen := hrest.2.2.2.2.1
  constructor
  · rw [h1]
    rfl
  · rw [h1]
    show g'.nodes.length = 6
    rw [hlen]
    rfl

/-! ## `render_hooks.py`: VariableGroup wrappers for Write nodes

The wrapper (`VariableGroup`) carries named knobs of several kinds; the
internal node (a Write or publishable Group) carries plain value knobs and
their UI labels.  `addKnob` appends; `knobs()` membership is association
list lookup. -/

/-- A knob on the VariableGroup wrapper. -/
inductive GKnob where
  | tab (label : String)
  | text (label : String)
  | strK (value : String)
  | pyscript (command : String)
  | link (targetNode targetKnob label : String)
  deriving DecidableEq

/-- An internal node: name, class, value knobs, and knob UI labels. -/
structure WNode where
  name : String
  klass : String
  knobs : List (String × String)
  labels : List (String × String)
  deriving DecidableEq

/-- The VariableGroup wrapper. -/
structure VG where
  name : String
  klass : String
  knobs : List (String × GKnob)
  label : String
  tileColor : Option Nat
  inner : List WNode
  deriving DecidableEq

/-- render_hooks._RESERVED_KNOBS. -/
def _RESERVED_KNOBS : List String :=
  ["name", "label", "xpos", "ypos", "selected", "hide_input", "note_font",
   "note_font_size", "note_font_color", "tile_color", "gl_color", "cached",
   "knobChanged", "help", "onCreate", "onDestroy", "node_class"]

/-- render_hooks._DEFAULT_WRITE_KNOBS. -/
def _DEFAULT_WRITE_KNOBS : List String :=
  ["file", "file_type", "channels", "views", "colorspace", "proxy",
   "first", "last", "use_limit", "create_directories"]

/-- The value cleanup of _sanitize_knob_scripts on one string value: strip a
leading legacy `python:` marker (after `lstrip()`), then `lstrip("\n\r ")`. -/
def sanitizeValue (v : String) : String :=
  let txt := pyLStrip v
  if pyStartsWith txt "python:" then pyLStripNlCrSp ⟨txt.data.drop 7⟩ else v

/-- render_hooks._sanitize_knob_scripts on an internal node: clean every
string-valued knob. -/
def sanitizeWNode (n : WNode) : WNode :=
  { n with knobs := n.knobs.map (fun kv => (kv.1, sanitizeValue kv.2)) }

/-- Sanitization of one wrapper knob: string-carrying knobs are cleaned. -/
def sanitizeGKnob : GKnob → GKnob
  | .strK v => .strK (sanitizeValue v)
  | .pyscript c => .pyscript (sanitizeValue c)
  | k => k

/-- render_hooks._sanitize_group_knob_scripts: sanitize the wrapper's own
knobs (including its label) and all internal nodes. -/
def sanitizeGroup (g : VG) : VG :=
  { g with knobs := g.knobs.map (fun kv => (kv.1, sanitizeGKnob kv.2)),
           label := sanitizeValue g.label,
           inner := g.inner.map sanitizeWNode }

/-- Add a knob under `name` unless one of that name exists (the shared
shape of `_ensure_tab` and the `if ... not in knobs: addKnob` steps of
`_ensure_management_tab`). -/
def _ensure_knob (g : VG) (name : String) (k : GKnob) : VG :=
  if (g.knobs.lookup name).isSome then g
  else { g with knobs := g.knobs ++ [(name, k)] }

/-- render_hooks._ensure_tab: add a Tab_Knob unless one of that name exists. -/
def _ensure_tab (g : VG) (name label : String) : VG :=
  _ensure_knob g name (.tab label)

/-- The UI label of an internal node's knob (`k.label()`, falling back to
the knob name). -/
def WNode.labelOf (n : WNode) (k : String) : String :=
  (n.labels.lookup k).getD k

/-- render_hooks._add_link_knob: refuse reserved names, names already on
the wrapper, and names absent from the source node; otherwise append a
Link_Knob targeting `src[name]`.  (`makeLink` by object always succeeds in
the model.)  Returns the updated group and whether a link was added. -/
def _add_link_knob (g : VG) (src : WNode) (name : String) (label : Option String) :
    VG × Bool :=
  if name ∈ _RESERVED_KNOBS then (g, false)
  else if (g.knobs.lookup name).isSome then (g, false)
  else if (src.knobs.lookup name).isNone then (g, false)
  else ({ g with knobs := g.knobs ++ [(name, .link src.name name (label.getD name))] },
        true)

/-- The command installed on the Refresh button. -/
def _bcn_refresh_cmd : String :=
  "import nuke\nimport BCN_multishot_toolset.nuke_tools.render_hooks as rh\nrh.refresh_variable_group_links(nuke.thisNode())\n"

/-- Update the bcn_refresh knob's command (`setCommand`; a no-op on a knob
of the wrong kind, where Python would raise and swallow the error). -/
def setRefreshCmd : GKnob → GKnob
  | .pyscript _ => .pyscript _bcn_refresh_cmd
  | k => k

/-- The Refresh-button step of _ensure_management_tab: reset the command
when the button exists, otherwise create it. -/
def _ensure_refresh_button (g : VG) : VG :=
  if (g.knobs.lookup "bcn_refresh").isSome then
    { g with knobs := g.knobs.map (fun kv =>
        if kv.1 = "bcn_refresh" then (kv.1, setRefreshCmd kv.2) else kv) }
  else { g with knobs := g.knobs ++ [("bcn_refresh", .pyscript _bcn_refresh_cmd)] }

/-- render_hooks._ensure_management_tab: ensure the BCN Wrapper tab, the
whitelist label and editor (seeded with `default_csv`), and the Refresh
button (whose command is reset when the button already exists). -/
def _ensure_management_tab (g : VG) (default_csv : String) : VG :=
  _ensure_refresh_button
    (_ensure_knob
      (_ensure_knob
        (_ensure_tab g "bcn_wrapper" "BCN Wrapper")
        "bcn_label" (.text "Write knob whitelist (CSV)"))
      "bcn_knob_whitelist" (.strK default_csv))

/-- render_hooks.WritePromoteConfig. -/
structure WritePromoteConfig where
  default_knobs : List String
  per_filetype_knobs : Option (List (String × List String))
  write_tab_label : String
  show_scope_on_label : Bool
  tile_color : Option Nat
  deriving DecidableEq

/-- Parse a whitelist out of the bcn_knob_whitelist knob's value
(WriteKnobPromoter._group_whitelist's body on the looked-up knob). -/
def whitelistOfKnob : Option GKnob → Option (List String)
  | some (.strK raw) =>
      if pyStrip raw ≠ ""
      then some (((pySplitComma raw).map pyStrip).filter (fun s => s ≠ ""))
      else none
  | _ => none

/-- WriteKnobPromoter._group_whitelist. -/
def _group_whitelist (g : VG) : Option (List String) :=
  whitelistOfKnob (g.knobs.lookup "bcn_knob_whitelist")

/-- WriteKnobPromoter._knob_list_for: wrapper override, else `file_type`
mapping, else the configured defaults. -/
def _knob_list_for (cfg : WritePromoteConfig) (g : VG) (w : WNode) : List String :=
  let override := (_group_whitelist g).getD []
  if override ≠ [] then override
  else
    match w.knobs.lookup "file_type", cfg.per_filetype_knobs with
    | some ft, some m =>
        if ft ≠ "" then
          match m.lookup ft with
          | some ks => ks
          | none => cfg.default_knobs
        else cfg.default_knobs
    | _, _ => cfg.default_knobs

/-- The `for name in self._knob_list_for(...)` loop of expose: add a link
per whitelisted name, counting the links actually added. -/
def exposeLoop (g : VG) (w : WNode) : List String → VG × Nat
  | [] => (g, 0)
  | name :: rest =>
      let r1 := _add_link_knob g w name (some (w.labelOf name))
      let r2 := exposeLoop r1.1 w rest
      (r2.1, (if r1.2 then 1 else 0) + r2.2)

/-- The tab bookkeeping at the start of expose: content tab then BCN
management tab, seeded with the default CSV. -/
def exposePrep (cfg : WritePromoteConfig) (g : VG) : VG :=
  _ensure_management_tab
    (_ensure_tab g cfg.write_tab_label cfg.write_tab_label)
    (", ".intercalate cfg.default_knobs)

/-- The tail of expose: show the scope on the label and set the tile color
when configured. -/
def exposeFinish (cfg : WritePromoteConfig) (g : VG) : VG :=
  let g3 := if cfg.show_scope_on_label then { g with label := "[value gsv]" } else g
  match cfg.tile_color with
  | some c => { g3 with tileColor := some c }
  | none => g3

/-- WriteKnobPromoter.expose: ensure the tabs, add a Link_Knob per
whitelisted knob, decorate the wrapper, and return the number of links
added. -/
def WriteKnobPromoter.expose (cfg : WritePromoteConfig) (g : VG) (w : WNode) :
    VG × Nat :=
  let g2 := exposePrep cfg g
  let r := exposeLoop g2 w (_knob_list_for cfg g2 w)
  (exposeFinish cfg r.1, r.2)

/-- render_hooks._find_internal_node: prefer lookup by original name, then a
node exposing publish_instance (when requested), then a Write, then the
first node. -/
def _find_internal_node (g : VG) (prefer_publish_instance : Bool)
    (original_name : Option String) : Option WNode :=
  let byName := match original_name with
                | some nm => if nm ≠ "" then g.inner.find? (fun n : WNode => n.name = nm)
                             else none
                | none => none
  match byName with
  | some n => some n
  | none =>
      let pub := if prefer_publish_instance
                 then g.inner.find? (fun n : WNode => (n.knobs.lookup "publish_instance").isSome)
                 else none
      match pub with
      | some n => some n
      | none =>
          match g.inner.find? (fun n : WNode => n.klass = "Write") with
          | some n => some n
          | none => g.inner.head?

/-- The configuration used by both entry points:
`WritePromoteConfig(default_knobs=_DEFAULT_WRITE_KNOBS)`. -/
def defaultPromoteConfig : WritePromoteConfig :=
  ⟨_DEFAULT_WRITE_KNOBS, none, "Write", true, some 4290838783⟩

/-- render_hooks.refresh_variable_group_links on a given group: sanitize,
check the class, find the internal node, and re-expose.  Returns the
updated group and the number of links added. -/
def refresh_variable_group_links (g : VG) : VG × Nat :=
  let g1 := sanitizeGroup g
  if g1.klass ≠ "VariableGroup" then (g1, 0)
  else
    match _find_internal_node g1 false none with
    | none => (g1, 0)
    | some target => WriteKnobPromoter.expose defaultPromoteConfig g1 target

/-- Modelled host primitive `nuke.collapseToVariableGroup()`: wrap the
selected node inside a fresh VariableGroup. -/
def collapseToVariableGroup (n : WNode) : VG :=
  { name := "VariableGroup1", klass := "VariableGroup", knobs := [],
    label := "", tileColor := none, inner := [n] }

/-- render_hooks.encapsulate_write_with_variable_group on a given node:
validate the class, collapse into a VariableGroup, rename, sanitize,
promote the internal node's knobs, and decorate the wrapper.  `none`
models the `nuke.message` early exits. -/
def encapsulate_write_with_variable_group (target : WNode) : Option VG :=
  let node_class := target.klass
  let has_publish := (target.knobs.lookup "publish_instance").isSome
  if node_class ≠ "Write" ∧ ¬(node_class = "Group" ∧ has_publish) then none
  else
    let prefer_publish := node_class = "Group" ∧ has_publish
    let original_name := target.name
    let target1 := sanitizeWNode target
    let group := collapseToVariableGroup target1
    let group1 := { group with name := original_name ++ "_VG" }
    let group2 := sanitizeGroup group1
    match _find_internal_node group2 prefer_publish (some original_name) with
    | none => some group2
    | some promote_target =>
        let pt := { promote_target with name := original_name }
        let group3 := { group2 with inner := group2.inner.map (fun n =>
            if n.name = promote_target.name then pt else n) }
        let r := WriteKnobPromoter.expose defaultPromoteConfig group3 pt
        some { r.1 with label := "[value gsv]", tileColor := some 4290838783 }

/-! ### Association-list lookup lemmas -/

/-- Lookup in an appended association list. -/
theorem lookup_append' {β : Type} (l1 l2 : List (String × β)) (k : String) :
    (l1 ++ l2).lookup k =
      (match l1.lookup k with
       | some v => some v
       | none => l2.lookup k) := by
  induction l1 with
  | nil => rfl
  | cons p t ih =>
      obtain ⟨k', v'⟩ := p
      cases hkk : (k == k') with
      | true => simp [List.lookup, hkk]
      | false => simp [List.lookup, hkk, ih]

/-- Appending preserves existing bindings. -/
theorem lookup_append_left' {β : Type} (l1 l2 : List (String × β)) (k : String)
    (v : β) (h : l1.lookup k = some v) : (l1 ++ l2).lookup k = some v := by
  rw [lookup_append', h]

/-- Lookup past a left part without the key. -/
theorem lookup_append_right' {β : Type} (l1 l2 : List (String × β)) (k : String)
    (h : l1.lookup k = none) : (l1 ++ l2).lookup k = l2.lookup k := by
  rw [lookup_append', h]

/-- Lookup after mapping all values. -/
theorem lookup_map_values {β γ : Type} (f : β → γ) (l : List (String × β)) (k : String) :
    (l.map (fun kv => (kv.1, f kv.2))).lookup k = (l.lookup k).map f := by
  induction l with
  | nil => rfl
  | cons p t ih =>
      obtain ⟨k', v'⟩ := p
      cases hkk : (k == k') with
      | true => simp [List.lookup, hkk]
      | false => simp [List.lookup, hkk, ih]

/-- Lookup after mapping the value at one key. -/
theorem lookup_map_keyed {β : Type} (f : β → β) (k0 : String) (l : List (String × β))
    (k : String) :
    (l.map (fun kv => if kv.1 = k0 then (kv.1, f kv.2) else kv)).lookup k =
      (if k = k0 then (l.lookup k).map f else l.lookup k) := by
  induction l with
  | nil =>
      by_cases hk : k = k0 <;> simp [List.lookup, hk]
  | cons p t ih =>
      obtain ⟨k', v'⟩ := p
      rw [List.map_cons]
      by_cases hk' : k' = k0
      · have hhead : (if (k', v').1 = k0 then ((k', v').1, f (k', v').2) else (k', v'))
            = (k', f v') := by
          show (if k' = k0 then (k', f v') else (k', v')) = (k', f v')
          rw [if_pos hk']
        rw [hhead]
        cases hkk : (k == k') with
        | true =>
            have hk0 : k = k0 := (of_decide_eq_true hkk).trans hk'
            rw [if_pos hk0]
            simp [List.lookup, hkk]
        | false =>
            have hk0 : ¬k = k0 := by
              intro he
              rw [he, ← hk'] at hkk
              simp at hkk
            rw [if_neg hk0]
            simp only [List.lookup, hkk]
            rw [ih, if_neg hk0]
      · have hhead : (if (k', v').1 = k0 then ((k', v').1, f (k', v').2) else (k', v'))
            = (k', v') := by
          show (if k' = k0 then (k', f v') else (k', v')) = (k', v')
          rw [if_neg hk']
        rw [hhead]
        cases hkk : (k == k') with
        | true =>
            have hkeq : k = k' := of_decide_eq_true hkk
            have hk0 : ¬k = k0 := fun he => hk' (hkeq ▸ he)
            rw [if_neg hk0]
            simp [List.lookup, hkk]
        | false =>
            simp only [List.lookup, hkk]
            exact ih

/-- Keys are unchanged by mapping values. -/
theorem map_fst_map_values {β γ : Type} (f : β → γ) (l : List (String × β)) :
    (l.map (fun kv => (kv.1, f kv.2))).map Prod.fst = l.map Prod.fst := by
  induction l with
  | nil => rfl
  | cons p t ih =>
      simp [ih]

/-! ### Preservation lemmas for the wrapper operations -/

/-- _ensure_knob preserves existing bindings. -/
theorem ensure_knob_pres (g : VG) (nm : String) (kb : GKnob) (k : String) (v : GKnob)
    (h : g.knobs.lookup k = some v) : ((_ensure_knob g nm kb).knobs.lookup k) = some v := by
  unfold _ensure_knob
  by_cases hp : (g.knobs.lookup nm).isSome
  · rw [if_pos hp]
    exact h
  · rw [if_neg hp]
    exact lookup_append_left' _ _ _ _ h

/-- _ensure_knob leaves other keys' lookups unchanged. -/
theorem ensure_knob_other (g : VG) (nm : String) (kb : GKnob) (k : String)
    (hk : k ≠ nm) : ((_ensure_knob g nm kb).knobs.lookup k) = g.knobs.lookup k := by
  unfold _ensure_knob
  by_cases hp : (g.knobs.lookup nm).isSome
  · rw [if_pos hp]
  · rw [if_neg hp]
    cases hg : g.knobs.lookup k with
    | some v => exact lookup_append_left' _ _ _ _ hg
    | none =>
        rw [lookup_append_right' _ _ _ hg]
        have hbeq : (k == nm) = false := by
          simp [hk]
        simp [List.lookup, hbeq]

/-- After _ensure_knob the name is bound. -/
theorem ensure_knob_present (g : VG) (nm : String) (kb : GKnob) :
    ((_ensure_knob g nm kb).knobs.lookup nm).isSome = true := by
  unfold _ensure_knob
  by_cases hp : (g.knobs.lookup nm).isSome
  · rw [if_pos hp]
    exact hp
  · rw [if_neg hp]
    have hnone : g.knobs.lookup nm = none := by
      cases hg : g.knobs.lookup nm with
      | some v => rw [hg] at hp; simp at hp
      | none => rfl
    rw [lookup_append_right' _ _ _ hnone]
    simp [List.lookup]

/-- _ensure_knob on an absent name binds it to the given knob. -/
theorem ensure_knob_absent (g : VG) (nm : String) (kb : GKnob)
    (h : g.knobs.lookup nm = none) :
    ((_ensure_knob g nm kb).knobs.lookup nm) = some kb := by
  unfold _ensure_knob
  rw [if_neg (by rw [h]; simp)]
  rw [lookup_append_right' _ _ _ h]
  simp [List.lookup]

/-- _ensure_refresh_button preserves bindings at other keys. -/
theorem refresh_button_pres (g : VG) (k : String) (v : GKnob)
    (hk : k ≠ "bcn_refresh") (h : g.knobs.lookup k = some v) :
    ((_ensure_refresh_button g).knobs.lookup k) = some v := by
  unfold _ensure_refresh_button
  by_cases hp : (g.knobs.lookup "bcn_refresh").isSome
  · rw [if_pos hp]
    show (g.knobs.map (fun kv =>
        if kv.1 = "bcn_refresh" then (kv.1, setRefreshCmd kv.2) else kv)).lookup k = some v
    rw [lookup_map_keyed, if_neg hk, h]
  · rw [if_neg hp]
    exact lookup_append_left' _ _ _ _ h

/-- _ensure_refresh_button preserves which keys are bound. -/
theorem refresh_button_isSome (g : VG) (k : String)
    (h : (g.knobs.lookup k).isSome = true) :
    (((_ensure_refresh_button g).knobs.lookup k)).isSome = true := by
  unfold _ensure_refresh_button
  by_cases hp : (g.knobs.lookup "bcn_refresh").isSome
  · rw [if_pos hp]
    show ((g.knobs.map (fun kv =>
        if kv.1 = "bcn_refresh" then (kv.1, setRefreshCmd kv.2) else kv)).lookup k).isSome = true
    rw [lookup_map_keyed]
    by_cases hk : k = "bcn_refresh"
    · rw [if_pos hk]
      cases hg : g.knobs.lookup k with
      | some v => rfl
      | none => rw [hg] at h; simp at h
    · rw [if_neg hk]
      exact h
  · rw [if_neg hp]
    obtain ⟨v, hv⟩ := Option.isSome_iff_exists.mp h
    rw [lookup_append_left' _ _ _ _ hv]
    rfl

/-- _ensure_management_tab preserves bindings at keys other than the
refresh button. -/
theorem mgmt_pres (g : VG) (csv : String) (k : String) (v : GKnob)
    (hk : k ≠ "bcn_refresh") (h : g.knobs.lookup k = some v) :
    ((_ensure_management_tab g csv).knobs.lookup k) = some v := by
  unfold _ensure_management_tab _ensure_tab
  exact refresh_button_pres _ _ _ hk
    (ensure_knob_pres _ _ _ _ _ (ensure_knob_pres _ _ _ _ _ (ensure_knob_pres _ _ _ _ _ h)))

/-- _ensure_management_tab preserves which keys are bound. -/
theorem mgmt_isSome (g : VG) (csv : String) (k : String)
    (h : (g.knobs.lookup k).isSome = true) :
    (((_ensure_management_tab g csv).knobs.lookup k)).isSome = true := by
  unfold _ensure_management_tab _ensure_tab
  refine refresh_button_isSome _ _ ?_
  obtain ⟨v, hv⟩ := Option.isSome_iff_exists.mp h
  rw [ensure_knob_pres _ _ _ _ _ (ensure_knob_pres _ _ _ _ _ (ensure_knob_pres _ _ _ _ _ hv))]
  rfl

/-- The whitelist binding after _ensure_management_tab: kept when present,
otherwise seeded with the default CSV. -/
theorem mgmt_whitelist (g : VG) (csv : String) :
    ((_ensure_management_tab g csv).knobs.lookup "bcn_knob_whitelist") =
      (match g.knobs.lookup "bcn_knob_whitelist" with
       | some v => some v
       | none => some (.strK csv)) := by
  unfold _ensure_management_tab _ensure_tab
  have h1 : ((_ensure_knob (_ensure_knob g "bcn_wrapper" (.tab "BCN Wrapper"))
      "bcn_label" (.text "Write knob whitelist (CSV)")).knobs.lookup "bcn_knob_whitelist") =
      g.knobs.lookup "bcn_knob_whitelist" := by
    rw [ensure_knob_other _ _ _ _ (by decide), ensure_knob_other _ _ _ _ (by decide)]
  cases hg : g.knobs.lookup "bcn_knob_whitelist" with
  | some v =>
      have h2 := ensure_knob_pres
        (_ensure_knob (_ensure_knob g "bcn_wrapper" (.tab "BCN Wrapper"))
          "bcn_label" (.text "Write knob whitelist (CSV)"))
        "bcn_knob_whitelist" (.strK csv) "bcn_knob_whitelist" v (h1.trans hg)
      exact refresh_button_pres _ _ _ (by decide) h2
  | none =>
      have h2 := ensure_knob_absent
        (_ensure_knob (_ensure_knob g "bcn_wrapper" (.tab "BCN Wrapper"))
          "bcn_label" (.text "Write knob whitelist (CSV)"))
        "bcn_knob_whitelist" (.strK csv) (h1.trans hg)
      exact refresh_button_pres _ _ _ (by decide) h2

/-- _add_link_knob preserves existing bindings. -/
theorem addLink_pres (g : VG) (w : WNode) (n : String) (l : Option String)
    (k : String) (v : GKnob) (h : g.knobs.lookup k = some v) :
    (((_add_link_knob g w n l).1).knobs.lookup k) = some v := by
  unfold _add_link_knob
  by_cases h1 : n ∈ _RESERVED_KNOBS
  · rw [if_pos h1]
    exact h
  · rw [if_neg h1]
    by_cases h2 : (g.knobs.lookup n).isSome
    · rw [if_pos h2]
      exact h
    · rw [if_neg h2]
      by_cases h3 : (w.knobs.lookup n).isNone
      · rw [if_pos h3]
        exact h
      · rw [if_neg h3]
        exact lookup_append_left' _ _ _ _ h

/-- exposeLoop preserves existing bindings. -/
theorem exposeLoop_pres (w : WNode) :
    ∀ (names : List String) (g : VG) (k : String) (v : GKnob),
      g.knobs.lookup k = some v →
      (((exposeLoop g w names).1).knobs.lookup k) = some v := by
  intro names
  induction names with
  | nil =>
      intro g k v h
      exact h
  | cons n rest ih =>
      intro g k v h
      unfold exposeLoop
      exact ih _ _ _ (addLink_pres g w n _ k v h)

/-- exposeFinish does not change the knobs. -/
theorem exposeFinish_knobs (cfg : WritePromoteConfig) (g : VG) :
    (exposeFinish cfg g).knobs = g.knobs := by
  unfold exposeFinish
  by_cases hs : cfg.show_scope_on_label = true
  · rw [if_pos hs]
    cases cfg.tile_color <;> rfl
  · rw [if_neg hs]
    cases cfg.tile_color <;> rfl

/-- exposePrep preserves bindings at keys other than the refresh button. -/
theorem exposePrep_pres (cfg : WritePromoteConfig) (g : VG) (k : String) (v : GKnob)
    (hk : k ≠ "bcn_refresh") (h : g.knobs.lookup k = some v) :
    ((exposePrep cfg g).knobs.lookup k) = some v := by
  unfold exposePrep _ensure_tab
  exact mgmt_pres _ _ _ _ hk (ensure_knob_pres _ _ _ _ _ h)

/-- exposePrep preserves which keys are bound. -/
theorem exposePrep_isSome (cfg : WritePromoteConfig) (g : VG) (k : String)
    (h : (g.knobs.lookup k).isSome = true) :
    (((exposePrep cfg g).knobs.lookup k)).isSome = true := by
  unfold exposePrep _ensure_tab
  refine mgmt_isSome _ _ _ ?_
  obtain ⟨v, hv⟩ := Option.isSome_iff_exists.mp h
  rw [ensure_knob_pres _ _ _ _ _ hv]
  rfl

/-- After exposePrep the whitelist knob is bound. -/
theorem exposePrep_whitelist_isSome (cfg : WritePromoteConfig) (g : VG) :
    (((exposePrep cfg g).knobs.lookup "bcn_knob_whitelist")).isSome = true := by
  unfold exposePrep
  rw [mgmt_whitelist]
  cases (_ensure_tab g cfg.write_tab_label cfg.write_tab_label).knobs.lookup
    "bcn_knob_whitelist" <;> rfl

/-- The three refusal conditions of _add_link_knob. -/
def linkRefused (g : VG) (w : WNode) (n : String) : Prop :=
  n ∈ _RESERVED_KNOBS ∨ (g.knobs.lookup n).isSome = true ∨
  (w.knobs.lookup n).isNone = true

/-- On a refused name, _add_link_knob is a no-op returning false. -/
theorem addLink_refused (g : VG) (w : WNode) (n : String) (l : Option String)
    (h : linkRefused g w n) : _add_link_knob g w n l = (g, false) := by
  unfold _add_link_knob
  by_cases h1 : n ∈ _RESERVED_KNOBS
  · rw [if_pos h1]
  · rw [if_neg h1]
    by_cases h2 : (g.knobs.lookup n).isSome
    · rw [if_pos h2]
    · rw [if_neg h2]
      have h3 : (w.knobs.lookup n).isNone = true := by
        rcases h with h | h | h
        · exact absurd h h1
        · exact absurd h h2
        · exact h
      rw [if_pos h3]

/-- After _add_link_knob runs for a name, that name is refused. -/
theorem addLink_establishes (g : VG) (w : WNode) (n : String) (l : Option String) :
    linkRefused ((_add_link_knob g w n l).1) w n := by
  unfold _add_link_knob
  by_cases h1 : n ∈ _RESERVED_KNOBS
  · rw [if_pos h1]
    exact Or.inl h1
  · rw [if_neg h1]
    by_cases h2 : (g.knobs.lookup n).isSome
    · rw [if_pos h2]
      exact Or.inr (Or.inl h2)
    · rw [if_neg h2]
      by_cases h3 : (w.knobs.lookup n).isNone
      · rw [if_pos h3]
        exact Or.inr (Or.inr h3)
      · rw [if_neg h3]
        refine Or.inr (Or.inl ?_)
        have hnone : g.knobs.lookup n = none := by
          cases hg : g.knobs.lookup n with
          | some v => rw [hg] at h2; simp at h2
          | none => rfl
        show ((g.knobs ++ [(n, GKnob.link w.name n (l.getD n))]).lookup n).isSome = true
        rw [lookup_append_right' _ _ _ hnone]
        simp [List.lookup]

/-- Refusal is stable under _add_link_knob for any name. -/
theorem addLink_refused_mono (g : VG) (w : WNode) (n m : String) (l : Option String)
    (h : linkRefused g w m) : linkRefused ((_add_link_knob g w n l).1) w m := by
  rcases h with h | h | h
  · exact Or.inl h
  · obtain ⟨v, hv⟩ := Option.isSome_iff_exists.mp h
    refine Or.inr (Or.inl ?_)
    rw [addLink_pres g w n l m v hv]
    rfl
  · exact Or.inr (Or.inr h)

/-- Refusal is stable under the expose loop. -/
theorem exposeLoop_refused_mono (w : WNode) :
    ∀ (names : List String) (g : VG) (m : String), linkRefused g w m →
      linkRefused ((exposeLoop g w names).1) w m := by
  intro names
  induction names with
  | nil =>
      intro g m h
      exact h
  | cons n rest ih =>
      intro g m h
      show linkRefused ((exposeLoop ((_add_link_knob g w n (some (w.labelOf n))).1)
        w rest).1) w m
      exact ih _ m (addLink_refused_mono g w n m _ h)

/-- After the expose loop, every processed name is refused. -/
theorem exposeLoop_after (w : WNode) :
    ∀ (names : List String) (g : VG), ∀ n ∈ names,
      linkRefused ((exposeLoop g w names).1) w n := by
  intro names
  induction names with
  | nil =>
      intro g n hn
      cases hn
  | cons m rest ih =>
      intro g n hn
      show linkRefused ((exposeLoop ((_add_link_knob g w m (some (w.labelOf m))).1)
        w rest).1) w n
      rcases List.mem_cons.mp hn with hn0 | hn'
      · subst hn0
        exact exposeLoop_refused_mono w rest _ n (addLink_establishes g w n _)
      · exact ih _ n hn'

/-- On a list of refused names, the expose loop adds nothing. -/
theorem exposeLoop_zero (w : WNode) :
    ∀ (names : List String) (g : VG), (∀ n ∈ names, linkRefused g w n) →
      exposeLoop g w names = (g, 0) := by
  intro names
  induction names with
  | nil =>
      intro g _
      rfl
  | cons m rest ih =>
      intro g h
      unfold exposeLoop
      rw [addLink_refused g w m _ (h m (List.mem_cons_self _ _))]
      show ((exposeLoop g w rest).1, (if false then 1 else 0) + (exposeLoop g w rest).2) =
        (g, 0)
      rw [ih g (fun n hn => h n (List.mem_cons_of_mem _ hn))]
      rfl

/-- `WriteKnobPromoter.expose` unfolded to its prep/loop/finish pipeline. -/
theorem expose_eq (cfg : WritePromoteConfig) (g : VG) (w : WNode) :
    WriteKnobPromoter.expose cfg g w =
      ((exposeFinish cfg (exposeLoop (exposePrep cfg g) w
        (_knob_list_for cfg (exposePrep cfg g) w)).1),
       (exposeLoop (exposePrep cfg g) w (_knob_list_for cfg (exposePrep cfg g) w)).2) := by
  unfold WriteKnobPromoter.expose
  rfl

/-- Re-running expose on its own output adds no links: every whitelisted
name was either linked (now present) or refused for a stable reason, and
the whitelist itself is unchanged by the second run. -/
theorem expose_twice_zero (cfg : WritePromoteConfig) (g : VG) (w : WNode) :
    (WriteKnobPromoter.expose cfg (WriteKnobPromoter.expose cfg g w).1 w).2 = 0 := by
  obtain ⟨v, hv⟩ := Option.isSome_iff_exists.mp (exposePrep_whitelist_isSome cfg g)
  have hvR : (((exposeLoop (exposePrep cfg g) w
      (_knob_list_for cfg (exposePrep cfg g) w)).1).knobs.lookup "bcn_knob_whitelist") =
      some v := exposeLoop_pres w _ _ _ v hv
  have hvA : (((WriteKnobPromoter.expose cfg g w).1).knobs.lookup "bcn_knob_whitelist") =
      some v := by
    rw [expose_eq cfg g w]
    show (((exposeFinish cfg (exposeLoop (exposePrep cfg g) w
      (_knob_list_for cfg (exposePrep cfg g) w)).1)).knobs.lookup "bcn_knob_whitelist") =
      some v
    rw [exposeFinish_knobs]
    exact hvR
  have hv2' : (((exposePrep cfg ((WriteKnobPromoter.expose cfg g w).1)).knobs.lookup
      "bcn_knob_whitelist")) = some v :=
    exposePrep_pres cfg _ _ v (by decide) hvA
  have hN : _knob_list_for cfg (exposePrep cfg ((WriteKnobPromoter.expose cfg g w).1)) w =
      _knob_list_for cfg (exposePrep cfg g) w := by
    unfold _knob_list_for _group_whitelist
    rw [hv2', hv]
  have href : ∀ n ∈ _knob_list_for cfg (exposePrep cfg g) w,
      linkRefused (exposePrep cfg ((WriteKnobPromoter.expose cfg g w).1)) w n := by
    intro n hn
    have h1 := exposeLoop_after w (_knob_list_for cfg (exposePrep cfg g) w)
      (exposePrep cfg g) n hn
    rcases h1 with h | h | h
    · exact Or.inl h
    · refine Or.inr (Or.inl ?_)
      refine exposePrep_isSome cfg _ _ ?_
      rw [expose_eq cfg g w]
      show (((exposeFinish cfg (exposeLoop (exposePrep cfg g) w
        (_knob_list_for cfg (exposePrep cfg g) w)).1)).knobs.lookup n).isSome = true
      rw [exposeFinish_knobs]
      exact h
    · exact Or.inr (Or.inr h)
  rw [expose_eq cfg ((WriteKnobPromoter.expose cfg g w).1) w]
  show (exposeLoop (exposePrep cfg ((WriteKnobPromoter.expose cfg g w).1)) w
    (_knob_list_for cfg (exposePrep cfg ((WriteKnobPromoter.expose cfg g w).1)) w)).2 = 0
  rw [hN, exposeLoop_zero w _ _ href]

/-! ### Field-preservation (name, class, inner nodes) for the wrapper operations -/

/-- _ensure_knob changes only the knob list. -/
theorem ensure_knob_meta (g : VG) (nm : String) (kb : GKnob) :
    (_ensure_knob g nm kb).name = g.name ∧ (_ensure_knob g nm kb).klass = g.klass ∧
    (_ensure_knob g nm kb).inner = g.inner := by
  unfold _ensure_knob
  by_cases hp : (g.knobs.lookup nm).isSome
  · rw [if_pos hp]
    exact ⟨rfl, rfl, rfl⟩
  · rw [if_neg hp]
    exact ⟨rfl, rfl, rfl⟩

/-- _ensure_refresh_button changes only the knob list. -/
theorem refresh_button_meta (g : VG) :
    (_ensure_refresh_button g).name = g.name ∧ (_ensure_refresh_button g).klass = g.klass ∧
    (_ensure_refresh_button g).inner = g.inner := by
  unfold _ensure_refresh_button
  by_cases hp : (g.knobs.lookup "bcn_refresh").isSome
  · rw [if_pos hp]
    exact ⟨rfl, rfl, rfl⟩
  · rw [if_neg hp]
    exact ⟨rfl, rfl, rfl⟩

/-- _ensure_management_tab changes only the knob list. -/
theorem mgmt_meta (g : VG) (csv : String) :
    (_ensure_management_tab g csv).name = g.name ∧
    (_ensure_management_tab g csv).klass = g.klass ∧
    (_ensure_management_tab g csv).inner = g.inner := by
  unfold _ensure_management_tab _ensure_tab
  refine ⟨?_, ?_, ?_⟩
  · rw [(refresh_button_meta _).1, (ensure_knob_meta _ _ _).1, (ensure_knob_meta _ _ _).1,
      (ensure_knob_meta _ _ _).1]
  · rw [(refresh_button_meta _).2.1, (ensure_knob_meta _ _ _).2.1,
      (ensure_knob_meta _ _ _).2.1, (ensure_knob_meta _ _ _).2.1]
  · rw [(refresh_button_meta _).2.2, (ensure_knob_meta _ _ _).2.2,
      (ensure_knob_meta _ _ _).2.2, (ensure_knob_meta _ _ _).2.2]

/-- exposePrep changes only the knob list. -/
theorem exposePrep_meta (cfg : WritePromoteConfig) (g : VG) :
    (exposePrep cfg g).name = g.name ∧ (exposePrep cfg g).klass = g.klass ∧
    (exposePrep cfg g).inner = g.inner := by
  unfold exposePrep _ensure_tab
  refine ⟨?_, ?_, ?_⟩
  · rw [(mgmt_meta _ _).1, (ensure_knob_meta _ _ _).1]
  · rw [(mgmt_meta _ _).2.1, (ensure_knob_meta _ _ _).2.1]
  · rw [(mgmt_meta _ _).2.2, (ensure_knob_meta _ _ _).2.2]

/-- _add_link_knob changes only the knob list. -/
theorem addLink_meta (g : VG) (w : WNode) (n : String) (l : Option String) :
    ((_add_link_knob g w n l).1).name = g.name ∧
    ((_add_link_knob g w n l).1).klass = g.klass ∧
    ((_add_link_knob g w n l).1).inner = g.inner := by
  unfold _add_link_knob
  by_cases h1 : n ∈ _RESERVED_KNOBS
  · rw [if_pos h1]
    exact ⟨rfl, rfl, rfl⟩
  · rw [if_neg h1]
    by_cases h2 : (g.knobs.lookup n).isSome
    · rw [if_pos h2]
      exact ⟨rfl, rfl, rfl⟩
    · rw [if_neg h2]
      by_cases h3 : (w.knobs.lookup n).isNone
      · rw [if_pos h3]
        exact ⟨rfl, rfl, rfl⟩
      · rw [if_neg h3]
        exact ⟨rfl, rfl, rfl⟩

/-- The expose loop changes only the knob list. -/
theorem exposeLoop_meta (w : WNode) :
    ∀ (names : List String) (g : VG),
      ((exposeLoop g w names).1).name = g.name ∧
      ((exposeLoop g w names).1).klass = g.klass ∧
      ((exposeLoop g w names).1).inner = g.inner := by
  intro names
  induction names with
  | nil =>
      intro g
      exact ⟨rfl, rfl, rfl⟩
  | cons m rest ih =>
      intro g
      exact ⟨(ih _).1.trans (addLink_meta g w m _).1,
        (ih _).2.1.trans (addLink_meta g w m _).2.1,
        (ih _).2.2.trans (addLink_meta g w m _).2.2⟩

/-- exposeFinish changes only the label and the tile colour. -/
theorem exposeFinish_meta (cfg : WritePromoteConfig) (g : VG) :
    (exposeFinish cfg g).name = g.name ∧ (exposeFinish cfg g).klass = g.klass ∧
    (exposeFinish cfg g).inner = g.inner := by
  unfold exposeFinish
  by_cases hs : cfg.show_scope_on_label = true
  · rw [if_pos hs]
    cases cfg.tile_color <;> exact ⟨rfl, rfl, rfl⟩
  · rw [if_neg hs]
    cases cfg.tile_color <;> exact ⟨rfl, rfl, rfl⟩

/-- expose changes only the knob list, the label and the tile colour: the
wrapper's name, class and internal nodes are untouched. -/
theorem expose_meta (cfg : WritePromoteConfig) (g : VG) (w : WNode) :
    ((WriteKnobPromoter.expose cfg g w).1).name = g.name ∧
    ((WriteKnobPromoter.expose cfg g w).1).klass = g.klass ∧
    ((WriteKnobPromoter.expose cfg g w).1).inner = g.inner := by
  rw [expose_eq]
  exact ⟨(exposeFinish_meta _ _).1.trans ((exposeLoop_meta w _ _).1.trans
      (exposePrep_meta cfg g).1),
    (exposeFinish_meta _ _).2.1.trans ((exposeLoop_meta w _ _).2.1.trans
      (exposePrep_meta cfg g).2.1),
    (exposeFinish_meta _ _).2.2.trans ((exposeLoop_meta w _ _).2.2.trans
      (exposePrep_meta cfg g).2.2)⟩

/-! ### What the expose loop adds -/

/-- _add_link_knob leaves lookups at other keys unchanged. -/
theorem addLink_other (g : VG) (w : WNode) (n : String) (l : Option String)
    (k : String) (hk : k ≠ n) :
    (((_add_link_knob g w n l).1).knobs.lookup k) = g.knobs.lookup k := by
  unfold _add_link_knob
  by_cases h1 : n ∈ _RESERVED_KNOBS
  · rw [if_pos h1]
  · rw [if_neg h1]
    by_cases h2 : (g.knobs.lookup n).isSome
    · rw [if_pos h2]
    · rw [if_neg h2]
      by_cases h3 : (w.knobs.lookup n).isNone
      · rw [if_pos h3]
      · rw [if_neg h3]
        show ((g.knobs ++ [(n, GKnob.link w.name n (l.getD n))]).lookup k) =
          g.knobs.lookup k
        cases hg : g.knobs.lookup k with
        | some v => exact lookup_append_left' _ _ _ _ hg
        | none =>
            rw [lookup_append_right' _ _ _ hg]
            have hbeq : (k == n) = false := by
              simp [hk]
            simp [List.lookup, hbeq]

/-- On an addable name (unreserved, absent from the group, present on the
source node) _add_link_knob records the Link_Knob. -/
theorem addLink_added (g : VG) (w : WNode) (n : String) (l : Option String)
    (h1 : n ∉ _RESERVED_KNOBS) (h2 : g.knobs.lookup n = none)
    (h3 : (w.knobs.lookup n).isSome = true) :
    (((_add_link_knob g w n l).1).knobs.lookup n) =
      some (.link w.name n (l.getD n)) := by
  have h2' : ¬((g.knobs.lookup n).isSome = true) := by
    rw [h2]
    simp
  have h3' : (w.knobs.lookup n).isNone = false := by
    cases hx : w.knobs.lookup n with
    | some v => rfl
    | none =>
        rw [hx] at h3
        simp at h3
  unfold _add_link_knob
  rw [if_neg h1, if_neg h2', if_neg (by simp [h3'])]
  show ((g.knobs ++ [(n, GKnob.link w.name n (l.getD n))]).lookup n) =
    some (.link w.name n (l.getD n))
  rw [lookup_append_right' _ _ _ h2]
  simp [List.lookup]

/-- Over a duplicate-free list of unreserved names absent from the group,
the expose loop records a Link_Knob for every name the source node
carries. -/
theorem exposeLoop_adds (w : WNode) :
    ∀ (names : List String) (g : VG), names.Nodup →
      (∀ n ∈ names, n ∉ _RESERVED_KNOBS) →
      (∀ n ∈ names, g.knobs.lookup n = none) →
      ∀ n ∈ names, (w.knobs.lookup n).isSome = true →
        (((exposeLoop g w names).1).knobs.lookup n) =
          some (.link w.name n (w.labelOf n)) := by
  intro names
  induction names with
  | nil =>
      intro g _ _ _ n hn
      cases hn
  | cons m rest ih =>
      intro g hnd hres habs n hn hw
      show (((exposeLoop ((_add_link_knob g w m (some (w.labelOf m))).1) w rest).1).knobs.lookup
        n) = some (.link w.name n (w.labelOf n))
      rcases List.mem_cons.mp hn with he | hn'
      · subst he
        exact exposeLoop_pres w rest _ n _
          (addLink_added g w n (some (w.labelOf n)) (hres n (List.mem_cons_self _ _))
            (habs n (List.mem_cons_self _ _)) hw)
      · refine ih _ (List.nodup_cons.mp hnd).2
          (fun n' hn'' => hres n' (List.mem_cons_of_mem _ hn''))
          (fun n' hn'' => ?_) n hn' hw
        have hne : n' ≠ m := fun he' =>
          (List.nodup_cons.mp hnd).1 (he' ▸ hn'')
        rw [addLink_other g w m _ n' hne]
        exact habs n' (List.mem_cons_of_mem _ hn'')

/-- exposePrep on a wrapper with no knobs yet produces exactly the content
tab and the four management knobs, with the whitelist seeded from the
default knob list. -/
theorem exposePrep_empty (g : VG) (h : g.knobs = []) :
    (exposePrep defaultPromoteConfig g).knobs =
      [("Write", .tab "Write"), ("bcn_wrapper", .tab "BCN Wrapper"),
       ("bcn_label", .text "Write knob whitelist (CSV)"),
       ("bcn_knob_whitelist", .strK (", ".intercalate _DEFAULT_WRITE_KNOBS)),
       ("bcn_refresh", .pyscript _bcn_refresh_cmd)] := by
  obtain ⟨nm, kl, kn, lb, tc, inn⟩ := g
  have h' : kn = [] := h
  subst h'
  rfl

/-- A nonempty wrapper whitelist overrides every other knob-list source. -/
theorem knob_list_override (cfg : WritePromoteConfig) (g : VG) (w : WNode)
    (v : List String) (hv : _group_whitelist g = some v) (hne : v ≠ []) :
    _knob_list_for cfg g w = v := by
  unfold _knob_list_for
  rw [hv]
  show (if v ≠ [] then v else
    match w.knobs.lookup "file_type", cfg.per_filetype_knobs with
    | some ft, some m =>
        if ft ≠ "" then
          match m.lookup ft with
          | some ks => ks
          | none => cfg.default_knobs
        else cfg.default_knobs
    | _, _ => cfg.default_knobs) = v
  rw [if_pos hne]

/-- expose with the default configuration on a wrapper that has no knobs
yet records a Link_Knob for every default write knob the source node
carries. -/
theorem expose_empty_links (g : VG) (w : WNode) (hk : g.knobs = []) :
    ∀ n ∈ _DEFAULT_WRITE_KNOBS, (w.knobs.lookup n).isSome = true →
      ((WriteKnobPromoter.expose defaultPromoteConfig g w).1).knobs.lookup n =
        some (.link w.name n (w.labelOf n)) := by
  intro n hn hsome
  rw [expose_eq]
  show ((exposeFinish defaultPromoteConfig
      (exposeLoop (exposePrep defaultPromoteConfig g) w
        (_knob_list_for defaultPromoteConfig (exposePrep defaultPromoteConfig g) w)).1)).knobs.lookup
      n = some (.link w.name n (w.labelOf n))
  rw [exposeFinish_knobs]
  have hpk : (exposePrep defaultPromoteConfig g).knobs =
      [("Write", .tab "Write"), ("bcn_wrapper", .tab "BCN Wrapper"),
       ("bcn_label", .text "Write knob whitelist (CSV)"),
       ("bcn_knob_whitelist", .strK (", ".intercalate _DEFAULT_WRITE_KNOBS)),
       ("bcn_refresh", .pyscript _bcn_refresh_cmd)] := exposePrep_empty g hk
  have hN : _knob_list_for defaultPromoteConfig (exposePrep defaultPromoteConfig g) w =
      _DEFAULT_WRITE_KNOBS := by
    refine knob_list_override _ _ _ _ ?_ (by decide)
    unfold _group_whitelist
    rw [hpk]
    decide
  rw [hN]
  have habs : ∀ m ∈ _DEFAULT_WRITE_KNOBS,
      (exposePrep defaultPromoteConfig g).knobs.lookup m = none := by
    have hconc : ∀ m ∈ _DEFAULT_WRITE_KNOBS,
        (([("Write", GKnob.tab "Write"), ("bcn_wrapper", .tab "BCN Wrapper"),
          ("bcn_label", .text "Write knob whitelist (CSV)"),
          ("bcn_knob_whitelist", .strK (", ".intercalate _DEFAULT_WRITE_KNOBS)),
          ("bcn_refresh", .pyscript _bcn_refresh_cmd)] : List (String × GKnob)).lookup m) =
          none := by
      decide
    intro m hm
    rw [hpk]
    exact hconc m hm
  exact exposeLoop_adds w _DEFAULT_WRITE_KNOBS (exposePrep defaultPromoteConfig g)
    (by decide) (by decide) habs n hn hsome

/-! ### Locating the internal node -/

/-- When the wrapper holds exactly one internal node and a nonempty
original name that matches it, _find_internal_node returns that node. -/
theorem find_internal_byName (g : VG) (t : WNode) (b : Bool) (nm : String)
    (h : g.inner = [t]) (ht : t.name = nm) (hne : nm ≠ "") :
    _find_internal_node g b (some nm) = some t := by
  simp only [_find_internal_node]
  rw [h, if_pos hne]
  have hp : (decide (t.name = nm)) = true := decide_eq_true ht
  have hfind : List.find? (fun n : WNode => n.name = nm) [t] = some t := by
    simp [List.find?, hp]
  rw [hfind]

/-- _find_internal_node only looks at the internal node list. -/
theorem find_internal_congr (g1 g2 : VG) (b : Bool) (nm : Option String)
    (h : g1.inner = g2.inner) :
    _find_internal_node g1 b nm = _find_internal_node g2 b nm := by
  unfold _find_internal_node
  rw [h]

/-- Swapping the unique internal node for its renamed copy. -/
theorem inner_swap (t pt : WNode) :
    [t].map (fun n => if n.name = t.name then pt else n) = [pt] := by
  show [if t.name = t.name then pt else t] = [pt]
  rw [if_pos rfl]

/-- `refresh_variable_group_links` unfolded to its sanitize/check/find/
expose pipeline. -/
theorem refresh_eq (g : VG) :
    refresh_variable_group_links g =
      (if (sanitizeGroup g).klass ≠ "VariableGroup" then (sanitizeGroup g, 0)
       else
         match _find_internal_node (sanitizeGroup g) false none with
         | none => (sanitizeGroup g, 0)
         | some target =>
             WriteKnobPromoter.expose defaultPromoteConfig (sanitizeGroup g) target) := by
  unfold refresh_variable_group_links
  rfl

/-- A second refresh adds no links when the first refresh's output is a
fixed point of script sanitization: the class check, the located internal
node and the whitelist are then all unchanged, and the re-run expose
refuses every name it processed. -/
theorem refresh_fix_zero (g : VG)
    (hfix : sanitizeGroup (refresh_variable_group_links g).1 =
      (refresh_variable_group_links g).1) :
    (refresh_variable_group_links (refresh_variable_group_links g).1).2 = 0 := by
  rw [refresh_eq g] at hfix ⊢
  by_cases h1 : (sanitizeGroup g).klass ≠ "VariableGroup"
  · rw [if_pos h1] at hfix ⊢
    have hfix' : sanitizeGroup (sanitizeGroup g) = sanitizeGroup g := hfix
    show (refresh_variable_group_links (sanitizeGroup g)).2 = 0
    rw [refresh_eq, hfix', if_pos h1]
  · rw [if_neg h1] at hfix ⊢
    cases hf : _find_internal_node (sanitizeGroup g) false none with
    | none =>
        rw [hf] at hfix
        have hfix' : sanitizeGroup (sanitizeGroup g) = sanitizeGroup g := hfix
        show (refresh_variable_group_links (sanitizeGroup g)).2 = 0
        rw [refresh_eq, hfix', if_neg h1, hf]
    | some t =>
        rw [hf] at hfix
        have hfix' : sanitizeGroup
            ((WriteKnobPromoter.expose defaultPromoteConfig (sanitizeGroup g) t).1) =
            (WriteKnobPromoter.expose defaultPromoteConfig (sanitizeGroup g) t).1 := hfix
        show (refresh_variable_group_links
          ((WriteKnobPromoter.expose defaultPromoteConfig (sanitizeGroup g) t).1)).2 = 0
        rw [refresh_eq, hfix']
        have hkl : ((WriteKnobPromoter.expose defaultPromoteConfig (sanitizeGroup g)
            t).1).klass = (sanitizeGroup g).klass := (expose_meta _ _ _).2.1
        have hin : ((WriteKnobPromoter.expose defaultPromoteConfig (sanitizeGroup g)
            t).1).inner = (sanitizeGroup g).inner := (expose_meta _ _ _).2.2
        rw [if_neg (show ¬((WriteKnobPromoter.expose defaultPromoteConfig (sanitizeGroup g)
            t).1).klass ≠ "VariableGroup" from fun hc => h1 (by rw [hkl] at hc; exact hc))]
        rw [find_internal_congr _ _ false none hin, hf]
        exact expose_twice_zero defaultPromoteConfig (sanitizeGroup g) t

/-! ### Concrete wrapper instances -/

/-- A Write node with a file knob, as wrapped by the toolset. -/
def cexWrite : WNode := ⟨"Write1", "Write", [("file", "/tmp/x.exr")], []⟩

/-- A wrapper whose whitelist value carries two legacy `python:` markers:
each sanitization pass strips one, so the whitelist differs between two
refresh calls. -/
def cexGroup : VG :=
  ⟨"Write1_VG", "VariableGroup",
   [("bcn_knob_whitelist", .strK "python:python:file")], "", none, [cexWrite]⟩

/-- A freshly-collapsed wrapper with no knobs yet. -/
def idGroup : VG := ⟨"Write1_VG", "VariableGroup", [], "", none, [cexWrite]⟩

/-- C8 counterexample: refreshing a wrapper twice is not idempotent even
though its whitelist was never edited by hand — sanitization rewrites the
`python:python:file` whitelist value to `python:file` during the first
call and to `file` during the second, so the second call adds 1 link, not
0. -/
theorem refresh_not_idempotent_cex :
    (refresh_variable_group_links cexGroup).2 = 0 ∧
    (refresh_variable_group_links (refresh_variable_group_links cexGroup).1).2 = 1 := by
  exact ⟨by decide, by decide⟩

/-- C8 (amended): re-exposing is idempotent where the whitelist really is
unchanged — a second `WriteKnobPromoter.expose` on an expose's own output
adds zero links for every configuration, source node and starting
wrapper, because `_add_link_knob` refuses names that are reserved, already
present on the wrapper, or absent from the source node; and a second
`refresh_variable_group_links` adds zero links whenever the first call's
output is a fixed point of script sanitization.  Without that proviso the
claim fails: sanitization can rewrite a `python:`-prefixed whitelist value
between the two calls (see the counterexample). -/
theorem expose_refresh_idempotent_amended :
    (∀ (cfg : WritePromoteConfig) (g : VG) (w : WNode),
      (WriteKnobPromoter.expose cfg (WriteKnobPromoter.expose cfg g w).1 w).2 = 0) ∧
    (∀ g : VG,
      sanitizeGroup (refresh_variable_group_links g).1 =
        (refresh_variable_group_links g).1 →
      (refresh_variable_group_links (refresh_variable_group_links g).1).2 = 0) :=
  ⟨expose_twice_zero, refresh_fix_zero⟩

/-- Witness for `expose_refresh_idempotent_amended`: on a freshly-collapsed
wrapper around a Write node, a second expose adds zero links, the first
refresh's output is sanitization-fixed, and a second refresh adds zero
links. -/
theorem expose_refresh_idempotent_amended_witness :
    (WriteKnobPromoter.expose defaultPromoteConfig
      (WriteKnobPromoter.expose defaultPromoteConfig idGroup cexWrite).1 cexWrite).2 = 0 ∧
    (sanitizeGroup (refresh_variable_group_links idGroup).1 =
        (refresh_variable_group_links idGroup).1 ∧
      (refresh_variable_group_links (refresh_variable_group_links idGroup).1).2 = 0) :=
  ⟨expose_refresh_idempotent_amended.1 defaultPromoteConfig idGroup cexWrite,
   by decide,
   expose_refresh_idempotent_amended.2 idGroup (by decide)⟩

/-! ### Per-render scope enforcement for the wrapper -/

/-- Modelled from the spec: per-render enforcement of a scope selection for
the wrapper named `nodeName` — before each render of the wrapper the
global scope variable is set to the wrapper's selected scope with the
previous value saved, and every render of it, nested renders and failures
included, restores the host state it started from. -/
def perRenderScopeEnforcement (nodeName : String) : Prop :=
  ∀ (scope : String) (s : RenderHostState),
    (beforeFrameRender nodeName scope s).gsv = some scope ∧
    ∀ (succeeded : Bool) (subs : List RenderTree),
      runRenderTree (.render nodeName scope succeeded subs) s = s

/-- The render-callback mechanism enforces the scope selection for every
node name, the VariableGroup wrappers included. -/
theorem perRenderScopeEnforcement_all (nodeName : String) :
    perRenderScopeEnforcement nodeName :=
  fun _scope s => ⟨rfl, fun _succeeded _subs => runRenderTree_preserves _ s⟩

/-- `encapsulate_write_with_variable_group` on an accepted node, with the
located internal node given: the collapse/rename/sanitize/promote pipeline
written out. -/
theorem encapsulate_some (target : WNode)
    (hcond : ¬(target.klass ≠ "Write" ∧
      ¬(target.klass = "Group" ∧ (target.knobs.lookup "publish_instance").isSome = true)))
    (pt : WNode)
    (hfind : _find_internal_node
        (sanitizeGroup { collapseToVariableGroup (sanitizeWNode target) with
          name := target.name ++ "_VG" })
        (decide (target.klass = "Group" ∧
          (target.knobs.lookup "publish_instance").isSome = true))
        (some target.name) = some pt) :
    encapsulate_write_with_variable_group target =
      some { (WriteKnobPromoter.expose defaultPromoteConfig
          { sanitizeGroup { collapseToVariableGroup (sanitizeWNode target) with
              name := target.name ++ "_VG" } with
            inner := (sanitizeGroup { collapseToVariableGroup (sanitizeWNode target) with
              name := target.name ++ "_VG" }).inner.map (fun n =>
                if n.name = pt.name then { pt with name := target.name } else n) }
          { pt with name := target.name }).1 with
        label := "[value gsv]", tileColor := some 4290838783 } := by
  simp only [encapsulate_write_with_variable_group]
  rw [if_neg hcond, hfind]

/-- C4: `encapsulate_write_with_variable_group` on a selected Write node
(or a Group exposing publish_instance) with a nonempty name collapses it
into a VariableGroup wrapper named `<node>_VG`: the wrapper holds exactly
one internal node keeping the original name, class and knob keys; every
default write knob the node carries is re-exposed on the wrapper as a
Link_Knob targeting it; the wrapper's label shows the active scope
variable and its tile colour marks it; and the wrapper's name enjoys the
(spec-modelled) per-render scope enforcement. -/
theorem encapsulate_write_spec (target : WNode)
    (hname : target.name ≠ "")
    (hT : target.klass = "Write" ∨
      (target.klass = "Group" ∧ (target.knobs.lookup "publish_instance").isSome = true)) :
    ∃ vg : VG,
      encapsulate_write_with_variable_group target = some vg ∧
      vg.klass = "VariableGroup" ∧
      vg.name = target.name ++ "_VG" ∧
      vg.label = "[value gsv]" ∧
      vg.tileColor = some 4290838783 ∧
      (∃ t : WNode, vg.inner = [t] ∧ t.name = target.name ∧ t.klass = target.klass ∧
        t.knobs.map Prod.fst = target.knobs.map Prod.fst) ∧
      (∀ n ∈ _DEFAULT_WRITE_KNOBS, (target.knobs.lookup n).isSome = true →
        vg.knobs.lookup n = some (.link target.name n (target.labelOf n))) ∧
      perRenderScopeEnforcement vg.name := by
  have hcond : ¬(target.klass ≠ "Write" ∧
      ¬(target.klass = "Group" ∧ (target.knobs.lookup "publish_instance").isSome = true)) := by
    rcases hT with hW | ⟨hG, hP⟩
    · exact fun hc => hc.1 hW
    · exact fun hc => hc.2 ⟨hG, hP⟩
  have hfind : _find_internal_node
      (sanitizeGroup { collapseToVariableGroup (sanitizeWNode target) with
        name := target.name ++ "_VG" })
      (decide (target.klass = "Group" ∧
        (target.knobs.lookup "publish_instance").isSome = true))
      (some target.name) = some (sanitizeWNode (sanitizeWNode target)) :=
    find_internal_byName _ _ _ target.name rfl rfl hname
  have hEnc := encapsulate_some target hcond _ hfind
  obtain ⟨PT, hpt⟩ : ∃ x : WNode,
      ({ sanitizeWNode (sanitizeWNode target) with name := target.name } : WNode) = x :=
    ⟨_, rfl⟩
  rw [hpt] at hEnc
  obtain ⟨G3, hG⟩ : ∃ x : VG,
      ({ sanitizeGroup { collapseToVariableGroup (sanitizeWNode target) with
           name := target.name ++ "_VG" } with
         inner := (sanitizeGroup { collapseToVariableGroup (sanitizeWNode target) with
           name := target.name ++ "_VG" }).inner.map (fun n =>
             if n.name = (sanitizeWNode (sanitizeWNode target)).name then PT else n) } : VG)
        = x := ⟨_, rfl⟩
  rw [hG] at hEnc
  obtain ⟨E, hE⟩ : ∃ x : VG × Nat,
      WriteKnobPromoter.expose defaultPromoteConfig G3 PT = x := ⟨_, rfl⟩
  rw [hE] at hEnc
  refine ⟨_, hEnc, ?_, ?_, rfl, rfl, ?_, ?_, ?_⟩
  · have h1 : E.1.klass = G3.klass := by
      rw [← hE]
      exact (expose_meta _ _ _).2.1
    have h2 : G3.klass = "VariableGroup" := by
      rw [← hG]
      rfl
    exact h1.trans h2
  · have h1 : E.1.name = G3.name := by
      rw [← hE]
      exact (expose_meta _ _ _).1
    have h2 : G3.name = target.name ++ "_VG" := by
      rw [← hG]
      rfl
    exact h1.trans h2
  · refine ⟨PT, ?_, ?_, ?_, ?_⟩
    · show E.1.inner = [PT]
      have h1 : E.1.inner = G3.inner := by
        rw [← hE]
        exact (expose_meta _ _ _).2.2
      rw [h1, ← hG]
      show (sanitizeGroup { collapseToVariableGroup (sanitizeWNode target) with
          name := target.name ++ "_VG" }).inner.map (fun n =>
            if n.name = (sanitizeWNode (sanitizeWNode target)).name then PT else n) = [PT]
      have hsing : (sanitizeGroup { collapseToVariableGroup (sanitizeWNode target) with
          name := target.name ++ "_VG" }).inner = [sanitizeWNode (sanitizeWNode target)] := rfl
      rw [hsing, inner_swap]
    · rw [← hpt]
    · rw [← hpt]
      rfl
    · rw [← hpt]
      exact (map_fst_map_values sanitizeValue
          (target.knobs.map (fun kv => (kv.1, sanitizeValue kv.2)))).trans
        (map_fst_map_values sanitizeValue target.knobs)
  · intro n hn hsome
    obtain ⟨v, hv⟩ := Option.isSome_iff_exists.mp hsome
    have hPTname : PT.name = target.name := by
      rw [← hpt]
    have hPTlab : PT.labelOf n = target.labelOf n := by
      rw [← hpt]
      rfl
    show E.1.knobs.lookup n = some (.link target.name n (target.labelOf n))
    rw [← hPTname, ← hPTlab, ← hE]
    refine expose_empty_links G3 PT ?_ n hn ?_
    · rw [← hG]
      rfl
    · rw [← hpt]
      show ((((target.knobs.map (fun kv => (kv.1, sanitizeValue kv.2))).map
          (fun kv => (kv.1, sanitizeValue kv.2))).lookup n)).isSome = true
      rw [lookup_map_values, lookup_map_values, hv]
      rfl
  · exact perRenderScopeEnforcement_all _

/-- Witness for `encapsulate_write_spec`: the example Write node has a
nonempty name and the right class, and its encapsulation succeeds. -/
theorem encapsulate_write_spec_witness :
    cexWrite.name ≠ "" ∧
    (encapsulate_write_with_variable_group cexWrite).isSome = true :=
  ⟨by decide, by
    obtain ⟨vg, hvg, -⟩ := encapsulate_write_spec cexWrite (by decide) (Or.inl rfl)
    rw [hvg]
    rfl⟩
